import Mathlib

/-!
Verification development for the KUKUFM story-generation pipeline.

Python strings are modelled as lists of characters (`Str`), Python lists as
Lean lists, Python `None`/optional values as `Option`, and Python exceptions
as `Except` values at the places where the source can raise; a `try/except`
in the source becomes a `match` on the `Except`.  Machine integers do not
occur (Python integers are unbounded); all integer values that appear are
parsed from digit strings or are episode counts, hence nonnegative, and are
modelled as `Nat` except where a signed value can occur (JSON numbers).

Each definition carries a comment pointing to the source function and lines
it embeds.  Concurrency (thread-pool fan-out with as_completed) is modelled
by an explicit completion order: a list of indices that is a permutation of
the batch indices, over which the result-collection loop folds.
-/

/-- Python `str` modelled as a list of characters. -/
abbrev Str := List Char

/-- Python whitespace (the ASCII characters recognised by `str.split()`,
`str.strip()` and the regex class `\s`): space, tab, newline, carriage
return, form feed, vertical tab. -/
def pySpace (c : Char) : Bool :=
  c = ' ' || c = '\t' || c = '\n' || c = '\x0d' || c = '\x0c' || c = '\x0b'

/-- Python `str.strip()` with no arguments: drop leading and trailing
whitespace. -/
def pyStrip (s : Str) : Str :=
  ((s.dropWhile pySpace).reverse.dropWhile pySpace).reverse

/-- Decimal digit test (regex class `\d`). -/
def isDigitCh (c : Char) : Bool := '0' ≤ c && c ≤ '9'

/-- Helper for `pyWords`: accumulate the current word (reversed) while
scanning. -/
def pyWordsAux : Str → Str → List Str
  | [], cur => if cur.isEmpty then [] else [cur.reverse]
  | c :: rest, cur =>
    if pySpace c then
      if cur.isEmpty then pyWordsAux rest [] else cur.reverse :: pyWordsAux rest []
    else
      pyWordsAux rest (c :: cur)

/-- Python `str.split()` with no arguments: the maximal runs of
non-whitespace characters. -/
def pyWords (s : Str) : List Str := pyWordsAux s []

/-- Word count of a string, as computed by `len(paragraph.split())` in
translator_agent.py line 73. -/
def wordCount (s : Str) : Nat := (pyWords s).length

/-- The paragraph separator string used throughout: a blank line. -/
def nn : Str := '\n' :: '\n' :: []

/-- Python `'\n\n'.join(parts)`. -/
def joinNN : List Str → Str
  | [] => []
  | p :: [] => p
  | p :: rest => p ++ nn ++ joinNN rest

/-- Helper for `splitParagraphs`: hand compilation of `re.split(r'\n\n+',
text)` (translator_agent.py line 65).  A separator is a leftmost maximal run
of two or more newlines; `cur` is the current part accumulated in reverse. -/
def spAux : Str → Str → List Str
  | [], cur => [cur.reverse]
  | c :: rest, cur =>
    if c = '\n' ∧ rest.head? = some '\n' then
      cur.reverse :: spAux (rest.dropWhile (fun d => d = '\n')) []
    else
      spAux rest (c :: cur)
termination_by s _ => s.length
decreasing_by
  · simp only [List.length_cons]
    have h := (List.dropWhile_sublist (l := rest) (fun d => d = '\n')).length_le
    omega
  · simp

/-- Embedding of `re.split(r'\n\n+', text)` from
`TranslatorAgent._split_into_chunks` (translator_agent.py line 65). -/
def splitParagraphs (s : Str) : List Str := spAux s []

/-- State step of the chunk-accumulation loop of
`TranslatorAgent._split_into_chunks` (translator_agent.py lines 67-88).
Arguments: remaining paragraphs, chunks produced so far (as paragraph
groups), current chunk, current word count, maximum chunk size.  The source
appends `'\n\n'.join(current_chunk)`; joining is performed afterwards by
`splitIntoChunks`, which is equivalent to joining at append time. -/
def chunksAux : List Str → List (List Str) → List Str → Nat → Nat → List (List Str)
  | [], chunks, cur, _, _ => if cur.isEmpty then chunks else chunks ++ [cur]
  | p :: ps, chunks, cur, cnt, maxSize =>
    let pc := wordCount p
    if cnt + pc > maxSize ∧ ¬ cur.isEmpty then
      chunksAux ps (chunks ++ [cur]) [p] pc maxSize
    else
      chunksAux ps chunks (cur ++ [p]) (cnt + pc) maxSize

/-- Embedding of `TranslatorAgent._split_into_chunks` (translator_agent.py
lines 53-90): split into paragraphs, greedily group them under the word
bound, and join each group with a blank line. -/
def splitIntoChunks (maxChunkSize : Nat) (text : Str) : List Str :=
  (chunksAux (splitParagraphs text) [] [] 0 maxChunkSize).map
    (fun g => joinNN g)

/-- Embedding of `TranslatorAgent._translate_chunk` (translator_agent.py
lines 92-111).  The unit function models `self.translator.invoke`, which
returns translated text or raises a transport error; the `except` branch
returns the tagged error string. -/
def translateChunk (unit : Str → Except Str Str) (chunk : Str) : Str :=
  match unit chunk with
  | .ok r => r
  | .error e => ("[Translation error: ").toList ++ e ++ ("]").toList

/-- Ordering used to model Python `list.sort(key=lambda x: x[0])`
(translator_agent.py line 153): stable comparison on the first component. -/
def keyLe (a b : Nat × Str) : Prop := a.1 ≤ b.1

instance : DecidableRel keyLe := fun a b => inferInstanceAs (Decidable (a.1 ≤ b.1))

instance : IsTotal (Nat × Str) keyLe := ⟨fun a b => Nat.le_total a.1 b.1⟩

instance : IsTrans (Nat × Str) keyLe := ⟨fun _ _ _ h h2 => Nat.le_trans h h2⟩

/-- Result collection of `TranslatorAgent.translate_story` (translator_agent.py
lines 133-150): workers complete in the order given by `order` (a
permutation of the chunk indices); each completion appends
`(index, translated_chunk)`.  `_translate_chunk` catches every exception
internally (lines 103-111), so the `future.result()` call at line 144 never
raises and the outer `except` at lines 148-150 is dead; accordingly each
completed future contributes its `translateChunk` value. -/
def collectTranslations (unit : Str → Except Str Str) (chunks : List Str)
    (order : List Nat) : List (Nat × Str) :=
  order.map (fun i => (i, translateChunk unit (chunks.getD i [])))

/-- Embedding of `TranslatorAgent.translate_story` (translator_agent.py lines
113-157): split into chunks, fan out, collect `(index, text)` pairs in
completion order, sort by original index (stable, as Python sort), and join
with a blank line. -/
def translateStory (unit : Str → Except Str Str) (text : Str)
    (order : List Nat) : Str :=
  let chunks := splitIntoChunks 3000 text
  let pairs := List.insertionSort keyLe (collectTranslations unit chunks order)
  joinNN (pairs.map Prod.snd)

/-- The sorted pair list of `translate_story`, exposed for the dispatcher
claims (translator_agent.py lines 152-153). -/
def dispatchOutput (unit : Str → Except Str Str) (chunks : List Str)
    (order : List Nat) : List (Nat × Str) :=
  List.insertionSort keyLe (collectTranslations unit chunks order)

/-!
A small backtracking regular-expression engine, used to embed the `re`
patterns of splitter_agent.py and consistency_checker.py.  Greedy and lazy
repetition, capture groups and negative lookahead suffice for every pattern
in the source.  The matcher is fuel-bounded; the fuel bounds the depth of
the backtracking search and is chosen generously relative to the subject
length, so that it is never exhausted on the subjects the proofs evaluate.
-/

/-- Regular-expression syntax.  `cls` is a character class, `star` is greedy
repetition, `starL` lazy repetition, `grp` a numbered capture group, `nla` a
negative lookahead, and `eos` the Python `$` (end of subject, or just before
a final newline, without MULTILINE). -/
inductive RE where
  | eps
  | cls (p : Char → Bool)
  | seq (a b : RE)
  | alt (a b : RE)
  | star (a : RE)
  | starL (a : RE)
  | grp (i : Nat) (a : RE)
  | nla (a : RE)
  | eos

/-- Captured groups: group index paired with captured text, most recent
first. -/
abbrev Caps := List (Nat × Str)

/-- Backtracking matcher in continuation-passing style.  `mat fuel r s c k`
attempts to match `r` against a prefix of `s` with captures `c`, calling the
continuation `k` on the remaining suffix; alternatives are tried left to
right, greedy repetition prefers longer matches, lazy repetition shorter
ones, as in Python `re`.  A repetition body that consumes nothing stops the
iteration (the patterns embedded below never repeat a nullable body). -/
def mat : Nat → RE → Str → Caps → (Str → Caps → Option (Str × Caps)) →
    Option (Str × Caps)
  | 0, _, _, _, _ => none
  | _ + 1, .eps, s, c, k => k s c
  | _ + 1, .cls p, s, c, k =>
    match s with
    | [] => none
    | x :: rest => if p x then k rest c else none
  | fuel + 1, .seq a b, s, c, k =>
    mat fuel a s c (fun s2 c2 => mat fuel b s2 c2 k)
  | fuel + 1, .alt a b, s, c, k =>
    (mat fuel a s c k).orElse (fun _ => mat fuel b s c k)
  | fuel + 1, .star a, s, c, k =>
    (mat fuel a s c (fun s2 c2 =>
      if s2.length < s.length then mat fuel (.star a) s2 c2 k else none)).orElse
      (fun _ => k s c)
  | fuel + 1, .starL a, s, c, k =>
    (k s c).orElse (fun _ => mat fuel a s c (fun s2 c2 =>
      if s2.length < s.length then mat fuel (.starL a) s2 c2 k else none))
  | fuel + 1, .grp i a, s, c, k =>
    mat fuel a s c (fun s2 c2 => k s2 ((i, s.take (s.length - s2.length)) :: c2))
  | fuel + 1, .nla a, s, c, k =>
    match mat fuel a s c (fun s2 c2 => some (s2, c2)) with
    | some _ => none
    | none => k s c
  | _ + 1, .eos, s, c, k => if s.isEmpty || s = '\n' :: [] then k s c else none

/-- Fuel bound for the matcher: ample for every pattern below (whose sizes
are far below 1024) on a subject of the given length. -/
def reFuel (s : Str) : Nat := 1024 * (s.length + 8)

/-- Anchored match of `r` at the start of `s`; returns the remaining suffix
and the captures of the leftmost-preferred match. -/
def matchAt (r : RE) (s : Str) : Option (Str × Caps) :=
  mat (reFuel s) r s [] (fun s2 c2 => some (s2, c2))

/-- One regex match: absolute start position, matched text, captures. -/
structure RMatch where
  start : Nat
  text : Str
  caps : Caps
deriving Repr, DecidableEq

/-- Scan for the leftmost match of `r`, starting at suffix `s` whose
absolute offset is `pos` (Python `re.search`). -/
def reSearchFrom (r : RE) : Str → Nat → Option RMatch
  | s, pos =>
    match matchAt r s with
    | some (rest, caps) => some ⟨pos, s.take (s.length - rest.length), caps⟩
    | none =>
      match s with
      | [] => none
      | _ :: t => reSearchFrom r t (pos + 1)

/-- Python `re.search`. -/
def reSearch (r : RE) (s : Str) : Option RMatch := reSearchFrom r s 0

/-- Retrieve a capture group from a match (Python `m.group(i)`). -/
def capGet (m : RMatch) (i : Nat) : Str :=
  ((m.caps.find? (fun p => p.1 = i)).map Prod.snd).getD []

/-- All non-overlapping matches, leftmost first (Python `re.findall` and
`re.finditer`); a zero-width match advances the scan by one character. -/
def findAllAux (r : RE) : Nat → Str → Nat → List RMatch
  | 0, _, _ => []
  | fuel + 1, s, pos =>
    match reSearchFrom r s pos with
    | none => []
    | some m =>
      let localStart := m.start - pos
      if m.text.isEmpty then
        m :: (match s.drop localStart with
          | [] => []
          | _ :: t => findAllAux r fuel t (m.start + 1))
      else
        m :: findAllAux r fuel (s.drop (localStart + m.text.length))
          (m.start + m.text.length)

/-- Python `re.findall` / `re.finditer`. -/
def reFindAll (r : RE) (s : Str) : List RMatch := findAllAux r (s.length + 1) s 0

/-- Python `re.split` for separator patterns that never match the empty
string (all split patterns in the source consume at least two characters). -/
def reSplitAux (r : RE) : Nat → Str → List Str
  | 0, s => [s]
  | fuel + 1, s =>
    match reSearch r s with
    | none => [s]
    | some m =>
      if m.text.isEmpty then [s]
      else s.take m.start :: reSplitAux r fuel (s.drop (m.start + m.text.length))

/-- Python `re.split`. -/
def reSplit (r : RE) (s : Str) : List Str := reSplitAux r (s.length + 1) s

/-- ASCII lowercase conversion (Python `str.lower` on the ASCII range). -/
def pyLowerCh (c : Char) : Char :=
  if 'A' ≤ c && c ≤ 'Z' then Char.ofNat (c.toNat + 32) else c

/-- Python `str.lower()`. -/
def pyLower (s : Str) : Str := s.map pyLowerCh

/-- Single literal character. -/
def lit1 (c : Char) : RE := .cls (fun d => d = c)

/-- Literal string. -/
def lit : Str → RE
  | [] => .eps
  | c :: rest => .seq (lit1 c) (lit rest)

/-- Case-insensitive literal string (regex compiled with `re.IGNORECASE`). -/
def litCI : Str → RE
  | [] => .eps
  | c :: rest => .seq (.cls (fun d => pyLowerCh d = pyLowerCh c)) (litCI rest)

/-- Any character: `.` under DOTALL, also the class `[\s\S]`. -/
def anyCh : RE := .cls (fun _ => true)

/-- Any character except newline: `.` without DOTALL, also `[^\n]`. -/
def notNl : RE := .cls (fun c => ¬ c = '\n')

/-- The class `\s`. -/
def wsCls : RE := .cls pySpace

/-- The class `\d`. -/
def digitCls : RE := .cls isDigitCh

/-- Greedy `+`. -/
def rplus (a : RE) : RE := .seq a (.star a)

/-- Lazy `+?`. -/
def rplusL (a : RE) : RE := .seq a (.starL a)

/-- Greedy `?`. -/
def ropt (a : RE) : RE := .alt a .eps

/-- Sequence of a list of patterns. -/
def seqs : List RE → RE
  | [] => .eps
  | r :: rest => .seq r (seqs rest)

/-- Alternation of a list of patterns, leftmost preferred. -/
def alts : List RE → RE
  | [] => .nla .eps
  | r :: [] => r
  | r :: rest => .alt r (alts rest)

/-- Tempered repetition `(?:(?!stop).)*` with the given body class. -/
def tempered (stop : RE) (body : RE) : RE := .star (.seq (.nla stop) body)

/-!
Embedding of `StorySplitterAgent` (splitter_agent.py): the `Episode` record,
the four parsing strategies of `_parse_episodes`, and the driver with its
placeholder fallback, sorting, padding, and last-episode cliffhanger rule.
-/

/-- The `Episode` pydantic model (splitter_agent.py lines 11-24).  `number`
is a Python int, always parsed from a digit string or drawn from
`range(1, num_episodes+1)`, hence a `Nat`. -/
structure Episode where
  number : Nat
  title : Str
  content : Str
  cliffhanger : Str
deriving DecidableEq, Repr, Inhabited

/-- Python `int()` applied to a (stripped) string of decimal digits. -/
def digitsToNat (s : Str) : Nat := s.foldl (fun n c => 10 * n + (c.toNat - 48)) 0

/-- Python `str()` of a nonnegative integer. -/
def natStr (n : Nat) : Str := Nat.toDigits 10 n

/-- Index of the first occurrence of `sep` in a string, if any. -/
def findSubIdx (sep : Str) : Str → Option Nat
  | [] => if sep.isEmpty then some 0 else none
  | s@(_ :: t) =>
    if sep.isPrefixOf s then some 0
    else (findSubIdx sep t).map (fun n => n + 1)

/-- Python `sep in s`. -/
def containsSub (s sep : Str) : Bool := (findSubIdx sep s).isSome

/-- Fuel-bounded worker for `pySplitSub`. -/
def splitSubAux (sep : Str) : Nat → Str → List Str
  | 0, s => [s]
  | fuel + 1, s =>
    match findSubIdx sep s with
    | none => [s]
    | some i => s.take i :: splitSubAux sep fuel (s.drop (i + sep.length))

/-- Python `s.split(sep)` for a nonempty separator string. -/
def pySplitSub (s sep : Str) : List Str := splitSubAux sep (s.length + 1) s

/-- Python `s.split(sep, 1)`. -/
def splitOnceSub (s sep : Str) : List Str :=
  match findSubIdx sep s with
  | none => [s]
  | some i => [s.take i, s.drop (i + sep.length)]

/-- Helper: position after the first character satisfying `p`, if any. -/
def dropThroughAux (p : Char → Bool) : Str → Option Str
  | [] => none
  | c :: rest => if p c then some rest else dropThroughAux p rest

/-- Python `re.sub(r'^.*?X', '', s, 1)` for a terminator class `X`: remove
everything up to and including the first character satisfying `p`; the
string is unchanged when no such character exists (lazy `.*?` reaches the
first terminator, and `.` matches every character before it since the first
terminator occurrence also bounds the newline-free prefix). -/
def dropThroughFirst (p : Char → Bool) (s : Str) : Str := (dropThroughAux p s).getD s

/-- Python `re.sub(r'SEP.*', '', s, flags=re.DOTALL)`: truncate at the first
occurrence of the literal `sep`. -/
def truncAtSub (s sep : Str) : Str :=
  match findSubIdx sep s with
  | some i => s.take i
  | none => s

/-- The subpattern `EPISODE\s*NUMBER:`. -/
def epNumHeaderRe : RE :=
  seqs [lit ("EPISODE").toList, .star wsCls, lit ("NUMBER:").toList]

/-- The stop alternation of the tempered content group of strategy 1:
`EPISODE\s*NUMBER:|TITLE:|CLIFFHANGER:`. -/
def s1StopRe : RE :=
  alts [epNumHeaderRe, lit ("TITLE:").toList, lit ("CLIFFHANGER:").toList]

/-- The strategy-1 pattern of `_parse_with_specific_markers`
(splitter_agent.py line 201), compiled with DOTALL:
`EPISODE\s*NUMBER:\s*(\d+)[^\n]*\n+\s*TITLE:\s*([^\n]*)\n+\s*CONTENT:\s*`
`((?:(?!EPISODE\s*NUMBER:|TITLE:|CLIFFHANGER:).)*)\s*CLIFFHANGER:\s*`
`((?:(?!EPISODE\s*NUMBER:).)*)`. -/
def s1Re : RE :=
  seqs [epNumHeaderRe, .star wsCls, .grp 1 (rplus digitCls), .star notNl,
    rplus (lit1 '\n'), .star wsCls, lit ("TITLE:").toList, .star wsCls,
    .grp 2 (.star notNl), rplus (lit1 '\n'), .star wsCls,
    lit ("CONTENT:").toList, .star wsCls, .grp 3 (tempered s1StopRe anyCh),
    .star wsCls, lit ("CLIFFHANGER:").toList, .star wsCls,
    .grp 4 (tempered epNumHeaderRe anyCh)]

/-- Embedding of `StorySplitterAgent._parse_with_specific_markers`
(splitter_agent.py lines 196-224).  The per-match `try` cannot fail over
this domain: `int()` is applied to a nonempty digit string and the
`Episode` constructor receives well-typed fields. -/
def parseWithSpecificMarkers (content : Str) (numEpisodes : Nat) : List Episode :=
  (reFindAll s1Re content).map (fun m =>
    let number := digitsToNat (pyStrip (capGet m 1))
    let title := pyStrip (capGet m 2)
    let contentText := pyStrip (capGet m 3)
    let cliffhanger := if number ≠ numEpisodes then pyStrip (capGet m 4) else []
    ⟨number, title, contentText, cliffhanger⟩)

/-- The anchored pattern `^\s*:?\s*(\d+)` of strategy 2 (splitter_agent.py
line 239). -/
def s2NumRe : RE :=
  seqs [.star wsCls, ropt (lit1 ':'), .star wsCls, .grp 1 (rplus digitCls)]

/-- The pattern `TITLE:\s*([^\n]+)` (splitter_agent.py line 246). -/
def s2TitleRe : RE :=
  seqs [lit ("TITLE:").toList, .star wsCls, .grp 1 (rplus notNl)]

/-- The fallback title pattern `(.+?):` (splitter_agent.py line 248). -/
def s2TitleFallbackRe : RE := seqs [.grp 1 (rplusL notNl), lit1 ':']

/-- The pattern `CONTENT:\s*((?:(?!CLIFFHANGER:).)*)` with DOTALL
(splitter_agent.py line 253). -/
def s2ContentRe : RE :=
  seqs [lit ("CONTENT:").toList, .star wsCls,
    .grp 1 (tempered (lit ("CLIFFHANGER:").toList) anyCh)]

/-- The pattern `CLIFFHANGER:\s*(.*?)($|\n\n)` with DOTALL
(splitter_agent.py line 265). -/
def s2CliffRe : RE :=
  seqs [lit ("CLIFFHANGER:").toList, .star wsCls, .grp 1 (.starL anyCh),
    .grp 2 (.alt .eos (lit nn))]

/-- Per-section body of the strategy-2 loop (splitter_agent.py lines
236-278); `i` is the 1-based enumeration index.  Returns `none` when the
section has no content after cleaning (the `if content_text:` guard at line
269). -/
def parseOneSection (numEpisodes i : Nat) (sect : Str) : Option Episode :=
  let number :=
    match matchAt s2NumRe sect with
    | some (_, caps) => digitsToNat ((((caps.find? (fun p => p.1 = 1)).map Prod.snd).getD []))
    | none => i
  let title :=
    match reSearch s2TitleRe sect with
    | some m => pyStrip (capGet m 1)
    | none =>
      match reSearch s2TitleFallbackRe sect with
      | some m => pyStrip (capGet m 1)
      | none => ("Episode ").toList ++ natStr number
  let contentText :=
    match reSearch s2ContentRe sect with
    | some m => capGet m 1
    | none =>
      truncAtSub (dropThroughFirst (fun c => c = '\n') sect) (("CLIFFHANGER:").toList)
  let contentText := pyStrip contentText
  let cliffhanger :=
    match reSearch s2CliffRe sect with
    | some m => pyStrip (capGet m 1)
    | none => []
  if contentText.isEmpty then none
  else some ⟨number, title, contentText, if number = numEpisodes then [] else cliffhanger⟩

/-- Embedding of `StorySplitterAgent._parse_with_episode_splitter`
(splitter_agent.py lines 226-280). -/
def parseWithEpisodeSplitter (content : Str) (numEpisodes : Nat) : List Episode :=
  let sections := pySplitSub content (("EPISODE NUMBER:").toList)
  let sections :=
    if sections.length ≤ 1 then pySplitSub content (("Episode ").toList) else sections
  if sections.length ≤ 1 then []
  else (sections.drop 1).enum.filterMap (fun p => parseOneSection numEpisodes (p.1 + 1) p.2)

/-- The subpattern `(?:Episode|Chapter)`. -/
def s3HeaderRe : RE := .alt (lit ("Episode").toList) (lit ("Chapter").toList)

/-- The stop alternation `(?:Episode|Chapter)\s+\d+` of the strategy-3
tempered group. -/
def s3StopRe : RE := seqs [s3HeaderRe, rplus wsCls, rplus digitCls]

/-- The strategy-3 pattern (splitter_agent.py line 287), DOTALL:
`(?:Episode|Chapter)\s+(\d+)[:\s-]+([^\n]+)(?:\n|\r\n?)`
`((?:(?!(?:Episode|Chapter)\s+\d+).)*)`. -/
def s3Re : RE :=
  seqs [s3HeaderRe, rplus wsCls, .grp 1 (rplus digitCls),
    rplus (.cls (fun c => c = ':' || pySpace c || c = '-')),
    .grp 2 (rplus notNl),
    .alt (lit1 '\n') (.seq (lit1 '\x0d') (ropt (lit1 '\n'))),
    .grp 3 (tempered s3StopRe anyCh)]

/-- The cliffhanger indicator strings (splitter_agent.py lines 304-308). -/
def cliffIndicators : List Str :=
  [("Cliffhanger:").toList, ("CLIFFHANGER:").toList,
   ("To be continued").toList, ("To Be Continued").toList,
   ("Suddenly,").toList, ("Just then,").toList, ("At that moment,").toList]

/-- The indicator scan of strategy 3 (splitter_agent.py lines 311-317):
first contained indicator, with the one-split parts. -/
def findCliffSplit : List Str → Str → Option (Str × Str × Str)
  | [], _ => none
  | ind :: rest, fc =>
    if containsSub fc ind then
      match splitOnceSub fc ind with
      | [a, b] => some (ind, a, b)
      | _ => findCliffSplit rest fc
    else findCliffSplit rest fc

/-- Per-match body of strategy 3 (splitter_agent.py lines 293-339). -/
def parseS3Match (numEpisodes : Nat) (m : RMatch) : Episode :=
  let number := digitsToNat (capGet m 1)
  let title := pyStrip (capGet m 2)
  let fullContent := pyStrip (capGet m 3)
  let st :=
    match findCliffSplit cliffIndicators fullContent with
    | some (ind, a, b) => (pyStrip a, pyStrip (ind ++ (" ").toList ++ b))
    | none => (fullContent, ([] : Str))
  let st :=
    if number ≠ numEpisodes ∧ st.2.isEmpty then
      let paragraphs := pySplitSub fullContent nn
      if paragraphs.length > 1 then
        (joinNN paragraphs.dropLast, paragraphs.getLastD [])
      else st
    else st
  ⟨number, title, st.1, if number = numEpisodes then [] else st.2⟩

/-- Embedding of `StorySplitterAgent._parse_with_number_title_pattern`
(splitter_agent.py lines 282-341). -/
def parseWithNumberTitle (content : Str) (numEpisodes : Nat) : List Episode :=
  (reFindAll s3Re content).map (parseS3Match numEpisodes)

/-- The first strategy-4 split pattern `\n\n\n+|\r\n\r\n\r\n+`
(splitter_agent.py line 348). -/
def s4Split1Re : RE :=
  .alt (seqs [lit1 '\n', lit1 '\n', rplus (lit1 '\n')])
    (seqs [lit ("\r\n\r\n\r").toList, rplus (lit1 '\n')])

/-- The second strategy-4 split pattern `\n\n|\r\n\r\n` (splitter_agent.py
line 352). -/
def s4Split2Re : RE := .alt (lit nn) (lit ("\r\n\r\n").toList)

/-- The pattern `(?:episode|chapter|part)\s*(\d+)` (splitter_agent.py line
362), applied to the lowercased chunk. -/
def s4EpStartRe : RE :=
  seqs [alts [lit ("episode").toList, lit ("chapter").toList, lit ("part").toList],
    .star wsCls, .grp 1 (rplus digitCls)]

/-- The pattern `(?:episode|chapter|part)\s*\d+\s*:?\s*(.+?)[\n\r]`
(splitter_agent.py line 373), applied to the lowercased chunk. -/
def s4TitleRe : RE :=
  seqs [alts [lit ("episode").toList, lit ("chapter").toList, lit ("part").toList],
    .star wsCls, rplus digitCls, .star wsCls, ropt (lit1 ':'), .star wsCls,
    .grp 1 (rplusL notNl), .cls (fun c => c = '\n' || c = '\x0d')]

/-- One iteration of the strategy-4 chunk loop (splitter_agent.py lines
360-388): state is (episodes so far, episode in progress).  The source sets
the cliffhanger to the empty string in both arms of its conditional at line
384. -/
def s4Step (st : List Episode × Option Episode) (chunk : Str) :
    List Episode × Option Episode :=
  match reSearch s4EpStartRe (pyLower chunk) with
  | some m =>
    let eps := match st.2 with | some e => st.1 ++ [e] | none => st.1
    let number := digitsToNat (capGet m 1)
    let title :=
      match reSearch s4TitleRe (pyLower chunk) with
      | some tm => pyStrip (capGet tm 1)
      | none => ("Episode ").toList ++ natStr number
    let contentText := dropThroughFirst (fun c => c = '\n' || c = '\x0d') chunk
    (eps, some ⟨number, title, contentText, []⟩)
  | none =>
    match st.2 with
    | some e => (st.1, some { e with content := e.content ++ nn ++ chunk })
    | none => st

/-- The closing cliffhanger pass of strategy 4 (splitter_agent.py lines
395-402): for every episode except the last, move the final paragraph of
its content into the cliffhanger field. -/
def s4AssignCliffs (eps : List Episode) : List Episode :=
  if eps.length ≥ 2 then
    eps.enum.map (fun p =>
      if p.1 < eps.length - 1 then
        let paragraphs := pySplitSub p.2.content nn
        if paragraphs.length > 1 then
          { p.2 with content := joinNN paragraphs.dropLast,
                     cliffhanger := paragraphs.getLastD [] }
        else p.2
      else p.2)
  else eps

/-- Embedding of `StorySplitterAgent._parse_with_loose_pattern`
(splitter_agent.py lines 343-404). -/
def parseWithLoosePattern (content : Str) (numEpisodes : Nat) : List Episode :=
  let chunks := reSplit s4Split1Re content
  let chunks := if chunks.length < numEpisodes then reSplit s4Split2Re content else chunks
  let chunks := chunks.filter (fun c => ¬ (pyStrip c).isEmpty)
  let st := chunks.foldl s4Step ([], none)
  let eps := match st.2 with | some e => st.1 ++ [e] | none => st.1
  s4AssignCliffs eps

/-- Placeholder episode title (splitter_agent.py lines 163, 180). -/
def placeholderTitle (i : Nat) : Str := ("Episode ").toList ++ natStr i

/-- Placeholder episode content (splitter_agent.py lines 164, 181). -/
def placeholderContent (i : Nat) (outline : Str) : Str :=
  ("Content for episode ").toList ++ natStr i ++ (" of the story about ").toList
    ++ outline.take 50 ++ ("...").toList

/-- Placeholder cliffhanger (splitter_agent.py lines 165, 182). -/
def placeholderCliff (i numEpisodes : Nat) : Str :=
  if i = numEpisodes then [] else ("Cliffhanger for episode ").toList ++ natStr i

/-- One synthetic generic episode (splitter_agent.py lines 161-166 and
178-183, which are identical). -/
def genericEpisode (numEpisodes : Nat) (outline : Str) (i : Nat) : Episode :=
  ⟨i, placeholderTitle i, placeholderContent i outline, placeholderCliff i numEpisodes⟩

/-- The all-placeholder fallback of `_parse_episodes` (splitter_agent.py
lines 158-167). -/
def genericEpisodes (numEpisodes : Nat) (outline : Str) : List Episode :=
  (List.range' 1 numEpisodes).map (genericEpisode numEpisodes outline)

/-- Ordering used to model `episodes.sort(key=lambda x: x.number)`
(splitter_agent.py lines 170, 187). -/
def numberLe (a b : Episode) : Prop := a.number ≤ b.number

instance : DecidableRel numberLe := fun a b => inferInstanceAs (Decidable (a.number ≤ b.number))

instance : IsTotal Episode numberLe := ⟨fun a b => Nat.le_total a.number b.number⟩

instance : IsTrans Episode numberLe := ⟨fun _ _ _ h h2 => Nat.le_trans h h2⟩

/-- Python stable sort by episode number. -/
def sortByNumber (eps : List Episode) : List Episode := List.insertionSort numberLe eps

/-- The strategy cascade of `_parse_episodes` (splitter_agent.py lines
139-155): strategies attempted in order, first nonempty result wins.  Each
strategy is total over this domain, so the `except` branch of the loop is
never taken. -/
def tryStrategies (content : Str) (numEpisodes : Nat) : List Episode :=
  let a := parseWithSpecificMarkers content numEpisodes
  if ¬ a.isEmpty then a
  else
    let b := parseWithEpisodeSplitter content numEpisodes
    if ¬ b.isEmpty then b
    else
      let c := parseWithNumberTitle content numEpisodes
      if ¬ c.isEmpty then c
      else parseWithLoosePattern content numEpisodes

/-- The count-validation padding of `_parse_episodes` (splitter_agent.py
lines 173-184): append a generic episode for every number in
`range(1, num_episodes+1)` not already present. -/
def padMissing (eps : List Episode) (numEpisodes : Nat) (outline : Str) : List Episode :=
  let currentNumbers := eps.map Episode.number
  eps ++ ((List.range' 1 numEpisodes).filter
    (fun i => ¬ currentNumbers.contains i)).map (genericEpisode numEpisodes outline)

/-- Embedding of `StorySplitterAgent._parse_episodes` (splitter_agent.py
lines 134-194): strategy cascade, generic fallback, sort, padding with
re-sort, and clearing of the final episode cliffhanger. -/
def parseEpisodes (content : Str) (numEpisodes : Nat) (outline : Str) : List Episode :=
  let parsed := tryStrategies content numEpisodes
  let episodes := if parsed.isEmpty then genericEpisodes numEpisodes outline else parsed
  let episodes := sortByNumber episodes
  let episodes :=
    if episodes.length < numEpisodes then sortByNumber (padMissing episodes numEpisodes outline)
    else episodes
  episodes.map (fun e => if e.number = numEpisodes then { e with cliffhanger := [] } else e)

/-!
Embedding of `ConsistencyChecker` (consistency_checker.py): issue records, a
JSON decoder modelling `json.loads` on the grammar the checker handles
(null, integers, strings, arrays, objects — floats, booleans and exotic
escapes are outside the modelled domain and are routed to the
exception-caught fallback, as any untypable value eventually is), and both
the JSON and the regex fallback paths of `_parse_issues_from_response`.
-/

/-- The `ConsistencyIssue` pydantic model (consistency_checker.py lines
9-16). -/
structure ConsistencyIssue where
  plot_option_index : Option Int
  plot_option_text : Option Str
  issue_type : Str
  severity : Str
  description : Str
  suggestions : List Str
deriving DecidableEq, Repr, Inhabited

/-- JSON values. -/
inductive Json where
  | null
  | num (n : Int)
  | str (s : Str)
  | arr (xs : List Json)
  | obj (fields : List (Str × Json))
deriving Inhabited, Repr

/-- JSON whitespace. -/
def jsonWs (c : Char) : Bool := c = ' ' || c = '\t' || c = '\n' || c = '\x0d'

/-- Skip JSON whitespace. -/
def skipWs (s : Str) : Str := s.dropWhile jsonWs

/-- String-body scanner for the JSON decoder: content up to the closing
quote, decoding the basic escapes. -/
def jsonParseStrBody : Nat → Str → Str → Option (Str × Str)
  | 0, _, _ => none
  | fuel + 1, s, acc =>
    match s with
    | [] => none
    | c :: rest =>
      if c = '"' then some (acc.reverse, rest)
      else if c = '\\' then
        match rest with
        | [] => none
        | d :: rest2 =>
          if d = '"' then jsonParseStrBody fuel rest2 ('"' :: acc)
          else if d = '\\' then jsonParseStrBody fuel rest2 ('\\' :: acc)
          else if d = '/' then jsonParseStrBody fuel rest2 ('/' :: acc)
          else if d = 'n' then jsonParseStrBody fuel rest2 ('\n' :: acc)
          else if d = 't' then jsonParseStrBody fuel rest2 ('\t' :: acc)
          else if d = 'r' then jsonParseStrBody fuel rest2 ('\x0d' :: acc)
          else none
      else jsonParseStrBody fuel rest (c :: acc)

/-- Natural-number literal parser for the JSON decoder; fails when the
digits are followed by a float or exponent marker (floats are outside the
modelled grammar). -/
def jsonParseNat (s : Str) : Option (Nat × Str) :=
  let ds := s.takeWhile isDigitCh
  if ds.isEmpty then none
  else
    match s.dropWhile isDigitCh with
    | '.' :: _ => none
    | 'e' :: _ => none
    | 'E' :: _ => none
    | rest => some (digitsToNat ds, rest)

mutual

/-- Value parser of the JSON decoder. -/
def jsonParseVal : Nat → Str → Option (Json × Str)
  | 0, _ => none
  | fuel + 1, s =>
    match skipWs s with
    | [] => none
    | c :: rest =>
      if c = 'n' then
        if ("ull").toList.isPrefixOf rest then some (.null, rest.drop 3) else none
      else if c = '-' then
        match jsonParseNat rest with
        | some (n, rest2) => some (.num (-(n : Int)), rest2)
        | none => none
      else if isDigitCh c then
        match jsonParseNat (c :: rest) with
        | some (n, rest2) => some (.num (n : Int), rest2)
        | none => none
      else if c = '"' then
        match jsonParseStrBody (rest.length + 1) rest [] with
        | some (content, rest2) => some (.str content, rest2)
        | none => none
      else if c = '[' then
        match skipWs rest with
        | ']' :: rest2 => some (.arr [], rest2)
        | _ => jsonParseArrItems fuel (skipWs rest) []
      else if c = '\x7b' then
        match skipWs rest with
        | '\x7d' :: rest2 => some (.obj [], rest2)
        | _ => jsonParseObjItems fuel (skipWs rest) []
      else none

/-- Array-item parser: items accumulated in reverse. -/
def jsonParseArrItems : Nat → Str → List Json → Option (Json × Str)
  | 0, _, _ => none
  | fuel + 1, s, acc =>
    match jsonParseVal fuel s with
    | none => none
    | some (v, rest) =>
      match skipWs rest with
      | ',' :: rest2 => jsonParseArrItems fuel rest2 (v :: acc)
      | ']' :: rest2 => some (.arr (v :: acc).reverse, rest2)
      | _ => none

/-- Object-member parser: members accumulated in reverse. -/
def jsonParseObjItems : Nat → Str → List (Str × Json) → Option (Json × Str)
  | 0, _, _ => none
  | fuel + 1, s, acc =>
    match skipWs s with
    | '"' :: rest =>
      match jsonParseStrBody (rest.length + 1) rest [] with
      | none => none
      | some (key, rest2) =>
        match skipWs rest2 with
        | ':' :: rest3 =>
          match jsonParseVal fuel rest3 with
          | none => none
          | some (v, rest4) =>
            match skipWs rest4 with
            | ',' :: rest5 => jsonParseObjItems fuel rest5 ((key, v) :: acc)
            | '\x7d' :: rest5 => some (.obj ((key, v) :: acc).reverse, rest5)
            | _ => none
        | _ => none
    | _ => none

end

/-- The modelled `json.loads`: a full parse of the input with only trailing
whitespace allowed. -/
def jsonLoads (s : Str) : Option Json :=
  match jsonParseVal (2 * s.length + 8) s with
  | some (v, rest) => if (skipWs rest).isEmpty then some v else none
  | none => none

/-- Python `dict.get` on a dict produced by `json.loads`: a duplicate key
keeps its last value, and both a missing key and a JSON `null` value are
`None` to the caller. -/
def jsonGet (fields : List (Str × Json)) (key : Str) : Option Json :=
  match (fields.reverse.find? (fun f => f.1 = key)).map Prod.snd with
  | some .null => none
  | v => v

/-- Decode a JSON array of strings (the `suggestions` field); any non-string
element is a validation failure. -/
def asStrList : List Json → Option (List Str)
  | [] => some []
  | .str s :: rest => (asStrList rest).map (fun l => s :: l)
  | _ :: _ => none

/-- One iteration of the JSON-path issue loop
(consistency_checker.py lines 118-136).  A `plot_option_index` that is
neither absent, null, nor an integer raises in Python (a `TypeError` at the
range comparison of line 124, or a validation error in the `ConsistencyIssue`
constructor) and is therefore routed to `.error`, which the enclosing `try`
(line 106) converts into the fallback path; likewise for non-string text
fields and non-string-list suggestions. -/
def issueFromItem (plotOptions : List Str) (item : Json) : Except Unit ConsistencyIssue :=
  match item with
  | .obj fields =>
    let idxE : Except Unit (Option Int) :=
      match jsonGet fields (("plot_option_index").toList) with
      | none => .ok none
      | some (.num n) => .ok (some n)
      | some _ => .error ()
    let txtE : Except Unit (Option Str) :=
      match jsonGet fields (("plot_option_text").toList) with
      | none => .ok none
      | some (.str s) => .ok (some s)
      | some _ => .error ()
    let typeE : Except Unit Str :=
      match jsonGet fields (("issue_type").toList) with
      | none => .ok (("Unknown").toList)
      | some (.str s) => .ok s
      | some _ => .error ()
    let sevE : Except Unit Str :=
      match jsonGet fields (("severity").toList) with
      | none => .ok (("warning").toList)
      | some (.str s) => .ok s
      | some _ => .error ()
    let descE : Except Unit Str :=
      match jsonGet fields (("description").toList) with
      | none => .ok (("No description provided").toList)
      | some (.str s) => .ok s
      | some _ => .error ()
    let suggE : Except Unit (List Str) :=
      match jsonGet fields (("suggestions").toList) with
      | none => .ok []
      | some (.arr xs) =>
        match asStrList xs with
        | some l => .ok l
        | none => .error ()
      | some _ => .error ()
    match idxE, txtE, typeE, sevE, descE, suggE with
    | .ok idx, .ok txt, .ok ty, .ok sev, .ok desc, .ok sugg =>
      let txt2 :=
        match idx, txt with
        | some i, none =>
          if 0 ≤ i ∧ i < (plotOptions.length : Int) then
            some (plotOptions.getD i.toNat [])
          else none
        | _, t => t
      .ok ⟨idx, txt2, ty, sev, desc, sugg⟩
    | _, _, _, _, _, _ => .error ()
  | _ => .error ()

/-- The JSON-path issue construction loop (consistency_checker.py lines
117-137), over the decoded array items. -/
def issuesFromData (plotOptions : List Str) (items : List Json) :
    Except Unit (List ConsistencyIssue) :=
  items.mapM (issueFromItem plotOptions)

/-- The pattern `(\[[\s\S]*\])` (consistency_checker.py line 108): from the
first opening bracket, greedily to the last closing bracket. -/
def jsonSliceRe : RE := .grp 1 (seqs [lit1 '[', .star anyCh, lit1 ']'])

/-- The JSON path of `_parse_issues_from_response` (consistency_checker.py
lines 105-140): `none` means the path did not return — no bracket slice was
found, `json.loads` raised, or the issue loop raised — and control falls
through to the regex fallback.  A successful parse of the bracket slice is
always a JSON array. -/
def tryParseJsonIssues (text : Str) (plotOptions : List Str) :
    Option (List ConsistencyIssue) :=
  match reSearch jsonSliceRe text with
  | none => none
  | some m =>
    match jsonLoads (capGet m 1) with
    | none => none
    | some (.arr items) =>
      if items.isEmpty then some []
      else
        match issuesFromData plotOptions items with
        | .ok issues => some issues
        | .error _ => none
    | some _ => none

/-- The fallback section-header pattern
`(?:Issue|Inconsistency|Problem)(?:\s+|:)(\d+):` with IGNORECASE
(consistency_checker.py line 147). -/
def issueHeaderRe : RE :=
  seqs [alts [litCI ("Issue").toList, litCI ("Inconsistency").toList,
      litCI ("Problem").toList],
    .alt (rplus wsCls) (lit1 ':'), .grp 1 (rplus digitCls), lit1 ':']

/-- The pattern `(?:Plot Option|Option)(?:\s+|:)(\d+)` with IGNORECASE
(consistency_checker.py line 159). -/
def plotOptRefRe : RE :=
  seqs [.alt (litCI ("Plot Option").toList) (litCI ("Option").toList),
    .alt (rplus wsCls) (lit1 ':'), .grp 1 (rplus digitCls)]

/-- The quoted-text pattern `"([^"]+)"` (consistency_checker.py line 172). -/
def quotedRe : RE :=
  seqs [lit1 '"', .grp 1 (rplus (.cls (fun c => ¬ c = '"'))), lit1 '"']

/-- The pattern `(?:Type|Issue Type):\s*(.+?)(?:\n|$)` (consistency_checker.py
line 177). -/
def typeRe : RE :=
  seqs [.alt (lit ("Type").toList) (lit ("Issue Type").toList), lit1 ':',
    .star wsCls, .grp 1 (rplusL notNl), .alt (lit1 '\n') .eos]

/-- The pattern `Severity:\s*(.+?)(?:\n|$)` (consistency_checker.py line
181). -/
def severityRe : RE :=
  seqs [lit ("Severity:").toList, .star wsCls, .grp 1 (rplusL notNl),
    .alt (lit1 '\n') .eos]

/-- The terminator `\n\s*(?:Suggestions|Fixes|Solutions)` of the description
pattern. -/
def descrStopRe : RE :=
  seqs [lit1 '\n', .star wsCls,
    alts [lit ("Suggestions").toList, lit ("Fixes").toList, lit ("Solutions").toList]]

/-- The pattern
`(?:Description|Problem|Explanation):\s*(.+?)(?:\n\s*(?:Suggestions|Fixes|Solutions)|$)`
with DOTALL (consistency_checker.py line 185). -/
def descrRe : RE :=
  seqs [alts [lit ("Description").toList, lit ("Problem").toList,
      lit ("Explanation").toList], lit1 ':',
    .star wsCls, .grp 1 (rplusL anyCh), .alt descrStopRe .eos]

/-- The pattern `(?:Suggestions|Fixes|Solutions):\s*([\s\S]+?)(?:\n\n|$)`
(consistency_checker.py line 190). -/
def suggBlockRe : RE :=
  seqs [alts [lit ("Suggestions").toList, lit ("Fixes").toList,
      lit ("Solutions").toList], lit1 ':',
    .star wsCls, .grp 1 (rplusL anyCh), .alt (lit nn) .eos]

/-- The pattern `(?:\d+\.\s*|\-\s*)(.+?)(?:\n|$)` (consistency_checker.py
line 194). -/
def suggItemRe : RE :=
  seqs [.alt (seqs [rplus digitCls, lit1 '.', .star wsCls])
      (seqs [lit1 '-', .star wsCls]),
    .grp 1 (rplusL notNl), .alt (lit1 '\n') .eos]

/-- The pattern `(?:no|zero) (?:inconsistencies|issues|problems)
(?:found|detected)` with IGNORECASE (consistency_checker.py line 216). -/
def noIssuesRe : RE :=
  seqs [.alt (litCI ("no").toList) (litCI ("zero").toList), lit1 ' ',
    alts [litCI ("inconsistencies").toList, litCI ("issues").toList,
      litCI ("problems").toList], lit1 ' ',
    .alt (litCI ("found").toList) (litCI ("detected").toList)]

/-- The generic placeholder issue (consistency_checker.py lines 221-230). -/
def parsingErrorIssue : ConsistencyIssue :=
  ⟨none, none, ("Parsing Error").toList, ("warning").toList,
   ("Could not parse specific issues from the consistency checker output").toList,
   [("Review the LLM response manually").toList,
    ("Try again with more specific instructions").toList]⟩

/-- Per-section body of the fallback loop (consistency_checker.py lines
157-209).  The section `try` cannot fail over this domain: `int()` is
applied to digit strings and every list access is range-guarded. -/
def fallbackSection (plotOptions : List Str) (sect : Str) : ConsistencyIssue :=
  let plotIdx0 : Option Nat :=
    (reSearch plotOptRefRe sect).map (fun m => digitsToNat (capGet m 1))
  let plotIdx : Option Nat :=
    match plotIdx0 with
    | some n =>
      if n ≥ plotOptions.length then (if n > 0 then some (n - 1) else some 0)
      else some n
    | none => none
  let plotText : Option Str :=
    match plotIdx with
    | some i =>
      if i < plotOptions.length then some (plotOptions.getD i [])
      else (reSearch quotedRe sect).map (fun m => capGet m 1)
    | none => (reSearch quotedRe sect).map (fun m => capGet m 1)
  let issueType :=
    match reSearch typeRe sect with
    | some m => pyStrip (capGet m 1)
    | none => ("Logical Inconsistency").toList
  let severity :=
    match reSearch severityRe sect with
    | some m => pyStrip (capGet m 1)
    | none => ("warning").toList
  let description :=
    match reSearch descrRe sect with
    | some m => pyStrip (capGet m 1)
    | none => ("Inconsistency detected").toList
  let suggestions : List Str :=
    match reSearch suggBlockRe sect with
    | none => []
    | some m =>
      let stext := capGet m 1
      let items := (reFindAll suggItemRe stext).map (fun im => capGet im 1)
      if ¬ items.isEmpty then (items.map pyStrip).filter (fun x => ¬ x.isEmpty)
      else [pyStrip stext]
  ⟨plotIdx.map (fun n => (n : Int)), plotText, issueType, severity, description,
   suggestions⟩

/-- The regex fallback of `_parse_issues_from_response`
(consistency_checker.py lines 143-232): locate issue-header sections, parse
each, then apply the no-issues sentinel and the substantial-text placeholder
rules. -/
def fallbackIssues (text : Str) (plotOptions : List Str) : List ConsistencyIssue :=
  let starts := (reFindAll issueHeaderRe text).map (fun m => m.start)
  let positions := starts ++ [text.length]
  let issues := (List.range (positions.length - 1)).map (fun i =>
    fallbackSection plotOptions
      (pyStrip ((text.drop (positions.getD i 0)).take
        (positions.getD (i + 1) 0 - positions.getD i 0))))
  if issues.isEmpty ∧ (reSearch noIssuesRe text).isSome then []
  else if issues.isEmpty ∧ (pyStrip text).length > 20 then [parsingErrorIssue]
  else issues

/-- Embedding of `ConsistencyChecker._parse_issues_from_response`
(consistency_checker.py lines 101-232). -/
def parseIssuesFromResponse (text : Str) (plotOptions : List Str) :
    List ConsistencyIssue :=
  match tryParseJsonIssues text plotOptions with
  | some issues => issues
  | none => fallbackIssues text plotOptions

/-!
Embedding of the pipeline-side code: the knowledge-graph state of
`ConsistencyChecker`, the agent objects (for the hidden-state claims), the
parallel enhancement dispatcher of `generate_story_pipeline`, and the
split-to-enhance stage boundary of the sequencer.
-/

/-- Association-list model of a Python dict: `d[k] = v` overwrites an
existing binding in place or appends a new one. -/
def dictInsert {κ β : Type} [DecidableEq κ] (d : List (κ × β)) (k : κ) (v : β) :
    List (κ × β) :=
  if d.any (fun p => p.1 = k) then d.map (fun p => if p.1 = k then (k, v) else p)
  else d ++ [(k, v)]

/-- Python `d.get(k)`. -/
def dictGet {κ β : Type} [DecidableEq κ] (d : List (κ × β)) (k : κ) : Option β :=
  (d.find? (fun p => p.1 = k)).map Prod.snd

/-- The knowledge-graph state of `ConsistencyChecker`
(consistency_checker.py lines 18-42), with the generic `Dict[str, Any]`
attribute maps instantiated at the two shapes `check_plot_consistency`
actually stores: outline events `(description, position)` and plot options
`(description, has_issues)`. -/
structure StoryKnowledgeGraph where
  eventEls : List (Str × (Str × Nat))
  plotEls : List (Str × (Str × Bool))
deriving DecidableEq, Repr, Inhabited

/-- The `ConsistencyChecker` object state (consistency_checker.py lines
47-65): configured model name and the mutable knowledge graph. -/
structure ConsistencyChecker where
  modelName : Str
  knowledgeGraph : StoryKnowledgeGraph
deriving DecidableEq, Repr, Inhabited

/-- Embedding of `ConsistencyChecker.check_plot_consistency`
(consistency_checker.py lines 234-269) after the LLM call: `response` is the
raw model output.  Returns the updated checker (the knowledge-graph writes
of lines 254-267) together with the parsed issues.  The `except` branch of
lines 271-283 guards the LLM invocation; the parsing and graph updates are
total. -/
def ConsistencyChecker.checkPlotConsistency (c : ConsistencyChecker)
    (response : Str) (outlineEvents plotOptions : List Str) :
    ConsistencyChecker × List ConsistencyIssue :=
  let issues := parseIssuesFromResponse response plotOptions
  let kg := outlineEvents.enum.foldl (fun g p =>
    let key := ("outline_event_").toList ++ natStr p.1
    { g with eventEls := dictInsert g.eventEls key (p.2, p.1) }) c.knowledgeGraph
  let kg := plotOptions.enum.foldl (fun g p =>
    let key := ("plot_option_").toList ++ natStr p.1
    let hasIssues := issues.any (fun iss => iss.plot_option_index = some (p.1 : Int))
    { g with plotEls := dictInsert g.plotEls key (p.2, hasIssues) }) kg
  ({ c with knowledgeGraph := kg }, issues)

/-- The `StorySplitterAgent` object state (splitter_agent.py lines 40-52):
configured model type and name; the agent holds no other mutable state. -/
structure StorySplitterAgent where
  modelType : Str
  modelName : Str
deriving DecidableEq, Repr, Inhabited

/-- The parsing phase of `StorySplitterAgent.split_story` (splitter_agent.py
line 129), with the raw model response supplied: the method reads no mutable
agent state, and `detailed_plot` is threaded through as the `outline`
argument of `_parse_episodes`. -/
def StorySplitterAgent.splitStoryParse (_agent : StorySplitterAgent)
    (content : Str) (numEpisodes : Nat) (detailedPlot : Str) : List Episode :=
  parseEpisodes content numEpisodes detailedPlot

/-- The per-episode context record assembled by `generate_story_pipeline`
before the parallel enhancement step (main.py lines 440-450; the constant
`characters` field is omitted). -/
structure EpisodeContext where
  episodeTitle : Str
  episodeNumber : Nat
  episodeOutline : Str
  previousSummary : Str
  previousCliffhanger : Str
  includeCliffhanger : Bool
  futureOutlines : Str
deriving DecidableEq, Repr, Inhabited

/-- The future-episode outline string for episode position `i` (main.py
lines 430-438): up to three following episodes, formatted and joined with a
blank line. -/
def futureOutlinesAt (episodes : List Episode) (i : Nat) : Str :=
  if i < episodes.length - 1 then
    joinNN (((episodes.drop (i + 1)).take 3).map (fun fe =>
      ("Episode ").toList ++ natStr fe.number ++ (" - ").toList ++ fe.title
        ++ (": ").toList ++ fe.content))
  else []

/-- The context-building loop of `generate_story_pipeline` (main.py lines
424-455), carrying the running summary and previous cliffhanger. -/
def buildContextsAux (all : List Episode) :
    Nat → List Episode → Str → Str → List EpisodeContext
  | _, [], _, _ => []
  | i, e :: rest, prevSum, prevCliff =>
    let ctx : EpisodeContext :=
      ⟨e.title, e.number, e.content, prevSum, prevCliff,
        ¬ e.cliffhanger.isEmpty, futureOutlinesAt all i⟩
    let prevSum2 := prevSum ++ natStr e.number ++ (". ").toList ++ e.title
      ++ ('\n' :: []) ++ e.content ++ nn
    ctx :: buildContextsAux all (i + 1) rest prevSum2 e.cliffhanger

/-- The episode contexts submitted to the enhancement pool (main.py lines
424-455). -/
def buildContexts (episodes : List Episode) : List EpisodeContext :=
  buildContextsAux episodes 0 episodes [] []

/-- One completed future of the parallel enhancement step (main.py lines
485-491): a successful enhancement stores its value keyed by the episode
number (line 488); a raised exception only prints a message (lines
489-491), so the failed episode leaves no entry.  The enhanced payload is
modelled as text. -/
def enhanceStep (episodes : List Episode) (unit : Episode → Except Str Str)
    (d : List (Nat × Str)) (i : Nat) : List (Nat × Str) :=
  let e := episodes.getD i default
  match unit e with
  | .ok v => dictInsert d e.number v
  | .error _ => d

/-- Result-map construction of the parallel enhancement step (main.py lines
478-491): futures complete in the order given by `order` (a permutation of
the positions of `episodes`). -/
def runEnhanceDispatch (episodes : List Episode)
    (unit : Episode → Except Str Str) (order : List Nat) : List (Nat × Str) :=
  order.foldl (enhanceStep episodes unit) []

/-- Downstream per-episode readout of the enhancement map, as consumed by
the dialogue step and the final assembly (main.py lines 500-505, 536-546):
iterate the episodes in original order and look each episode number up. -/
def enhanceReadout {α : Type} (episodes : List Episode) (d : List (Nat × α)) :
    List (Option α) :=
  episodes.map (fun e => dictGet d e.number)

/-!
Helper lemmas about the episode extractor.
-/

/-- Stable sort by episode number preserves length. -/
theorem sortByNumber_length (l : List Episode) :
    (sortByNumber l).length = l.length :=
  (List.perm_insertionSort numberLe l).length_eq

/-- Stable sort by episode number sorts. -/
theorem sortByNumber_sorted (l : List Episode) :
    (sortByNumber l).Sorted numberLe :=
  List.sorted_insertionSort numberLe l

/-- The generic fallback produces exactly `num_episodes` episodes. -/
theorem genericEpisodes_length (numEpisodes : Nat) (outline : Str) :
    (genericEpisodes numEpisodes outline).length = numEpisodes := by
  simp [genericEpisodes]

/-- The padding step restores at least `num_episodes` episodes: a number of
`range(1, num_episodes+1)` missing from the parsed numbers is appended for
each absence, and at most `eps.length` of those numbers can be present. -/
theorem padMissing_length_ge (eps : List Episode) (numEpisodes : Nat) (outline : Str) :
    numEpisodes ≤ (padMissing eps numEpisodes outline).length := by
  unfold padMissing
  simp only [List.length_append, List.length_map]
  have hpart :=
    List.length_eq_length_filter_add (l := List.range' 1 numEpisodes)
      (fun i => (eps.map Episode.number).contains i)
  have hlen : (List.range' 1 numEpisodes).length = numEpisodes := by simp
  have hsub : ((List.range' 1 numEpisodes).filter
      (fun i => (eps.map Episode.number).contains i)).length ≤ eps.length := by
    have hnd : ((List.range' 1 numEpisodes).filter
        (fun i => (eps.map Episode.number).contains i)).Nodup :=
      (List.nodup_range' 1 numEpisodes).filter _
    have hss : ((List.range' 1 numEpisodes).filter
        (fun i => (eps.map Episode.number).contains i)) ⊆ eps.map Episode.number := by
      intro x hx
      have := List.of_mem_filter hx
      exact List.mem_of_elem_eq_true this
    have := (hnd.subperm hss).length_le
    simpa using this
  have hneg : ((List.range' 1 numEpisodes).filter
        (fun i => ¬ (eps.map Episode.number).contains i)).length
      = ((List.range' 1 numEpisodes).filter
        (fun i => ! (eps.map Episode.number).contains i)).length := by
    congr 1
    apply List.filter_congr
    intro x _
    show decide (¬ (eps.map Episode.number).contains x = true)
      = ! (eps.map Episode.number).contains x
    cases h : (eps.map Episode.number).contains x <;> simp
  rw [hneg]
  omega

/-- The episode number is unchanged by the final cliffhanger-clearing map. -/
theorem clearLast_number (numEpisodes : Nat) (e : Episode) :
    (if e.number = numEpisodes then { e with cliffhanger := [] } else e).number
      = e.number := by
  by_cases h : e.number = numEpisodes <;> simp [h]

/-- The extractor always returns at least `num_episodes` episodes: the
generic fallback supplies exactly that many and the padding step restores
any shortfall. -/
theorem parseEpisodes_length_ge (content : Str) (numEpisodes : Nat) (outline : Str) :
    numEpisodes ≤ (parseEpisodes content numEpisodes outline).length := by
  unfold parseEpisodes
  simp only [List.length_map]
  split <;> split
  all_goals first
    | (rw [sortByNumber_length]; exact padMissing_length_ge _ _ _)
    | omega

/-- Clearing the final cliffhanger preserves sortedness by number. -/
theorem sorted_map_clearLast (l : List Episode) (numEpisodes : Nat)
    (h : l.Sorted numberLe) :
    (l.map (fun e => if e.number = numEpisodes then { e with cliffhanger := [] }
      else e)).Sorted numberLe := by
  rw [List.Sorted, List.pairwise_map]
  apply h.imp
  intro a b hab
  unfold numberLe at *
  rw [clearLast_number, clearLast_number]
  exact hab

/-- The extractor output is sorted in ascending episode number. -/
theorem parseEpisodes_sorted (content : Str) (numEpisodes : Nat) (outline : Str) :
    (parseEpisodes content numEpisodes outline).Sorted numberLe := by
  unfold parseEpisodes
  apply sorted_map_clearLast
  split <;> split <;> exact sortByNumber_sorted _

/-!
Claim C8.
-/

/-- C8: for every raw text input and episode count, every episode returned
by the episode extractor whose number equals `num_episodes` (the final
episode) has an empty cliffhanger field (splitter_agent.py lines 189-194). -/
theorem c8_final_episode_cliffhanger_empty (content : Str) (numEpisodes : Nat)
    (outline : Str) (e : Episode)
    (hmem : e ∈ parseEpisodes content numEpisodes outline)
    (hnum : e.number = numEpisodes) : e.cliffhanger = [] := by
  unfold parseEpisodes at hmem
  rcases List.mem_map.mp hmem with ⟨e0, _, heq⟩
  by_cases h : e0.number = numEpisodes
  · rw [← heq]
    simp [h]
  · exfalso
    apply h
    rw [← hnum, ← heq]
    simp [h]

/-- Witness for C8 at a concrete input: the final generic episode of the
placeholder fallback on the empty response. -/
theorem c8_witness :
    ((parseEpisodes [] 2 (("O").toList)).getD 1 default).cliffhanger = [] :=
  c8_final_episode_cliffhanger_empty [] 2 (("O").toList) _ (by decide) (by decide)

/-!
Claim C7.
-/

/-- Counterexample input for C7: a response whose only parsed episode is
numbered 5. -/
def c7CexContent : Str :=
  ("EPISODE NUMBER: 5\nTITLE: T\nCONTENT: c\nCLIFFHANGER: z").toList

/-- C7 counterexample: with `num_episodes = 2` and a response parsing to the
single episode 5, the extractor returns three records numbered 1, 2 and 5 —
not exactly two records numbered 1 and 2 as the claim states (the padding
step of splitter_agent.py lines 173-187 only adds missing numbers, it never
removes or renumbers parsed ones). -/
theorem c7_counterexample :
    (parseEpisodes c7CexContent 2 (("O").toList)).map Episode.number = [1, 2, 5] := by
  decide

/-- C7 amended: the extractor returns at least `num_episodes` episode
records, sorted in ascending episode number; it can return more than
`num_episodes` records, and a parsed out-of-range number is kept. -/
theorem c7_episode_count_sorted (content : Str) (numEpisodes : Nat) (outline : Str) :
    numEpisodes ≤ (parseEpisodes content numEpisodes outline).length ∧
    (parseEpisodes content numEpisodes outline).Sorted numberLe :=
  ⟨parseEpisodes_length_ge content numEpisodes outline,
   parseEpisodes_sorted content numEpisodes outline⟩

/-!
Claim C3.
-/

/-- The head of a `dropWhile` result does not satisfy the dropped
predicate. -/
theorem dropWhile_head_not (p : Char → Bool) (l : Str) :
    ∀ c ∈ (l.dropWhile p).head?, ¬ p c := by
  induction l with
  | nil => simp
  | cons x xs ih =>
    by_cases h : p x
    · simpa [List.dropWhile_cons, h] using ih
    · simp [List.dropWhile_cons, h]

/-- A list whose head does not satisfy `p` is unchanged by `dropWhile p`. -/
theorem dropWhile_eq_self_of_head (p : Char → Bool) (l : Str)
    (h : ∀ c ∈ l.head?, ¬ p c) : l.dropWhile p = l := by
  cases l with
  | nil => rfl
  | cons x xs =>
    have := h x (by simp)
    simp [List.dropWhile_cons, this]

/-- The first character of a stripped string is not whitespace. -/
theorem pyStrip_head_not (s : Str) : ∀ c ∈ (pyStrip s).head?, ¬ pySpace c := by
  intro c hc
  unfold pyStrip at hc
  rw [List.head?_reverse] at hc
  rcases hb : ((s.dropWhile pySpace).reverse.dropWhile pySpace) with _ | ⟨x, xs⟩
  · rw [hb] at hc
    simp at hc
  · have hne : (s.dropWhile pySpace).reverse.dropWhile pySpace ≠ [] := by
      rw [hb]; simp
    have hsuff := List.dropWhile_suffix (l := (s.dropWhile pySpace).reverse) pySpace
    rcases hsuff with ⟨pre, hpre⟩
    have hlast : ((s.dropWhile pySpace).reverse.dropWhile pySpace).getLast?
        = (s.dropWhile pySpace).reverse.getLast? := by
      conv_rhs => rw [← hpre]
      exact (List.getLast?_append_of_ne_nil pre hne).symm
    rw [hlast, List.getLast?_reverse] at hc
    exact dropWhile_head_not pySpace s c hc

/-- The last character of a stripped string is not whitespace. -/
theorem pyStrip_getLast_not (s : Str) :
    ∀ c ∈ (pyStrip s).getLast?, ¬ pySpace c := by
  intro c hc
  unfold pyStrip at hc
  rw [List.getLast?_reverse] at hc
  exact dropWhile_head_not pySpace (s.dropWhile pySpace).reverse c hc

/-- Stripping is idempotent. -/
theorem pyStrip_idem (s : Str) : pyStrip (pyStrip s) = pyStrip s := by
  conv_lhs => rw [pyStrip]
  rw [dropWhile_eq_self_of_head pySpace (pyStrip s) (pyStrip_head_not s)]
  rw [dropWhile_eq_self_of_head pySpace (pyStrip s).reverse (by
    intro c hc
    rw [List.head?_reverse] at hc
    exact pyStrip_getLast_not s c hc)]
  exact List.reverse_reverse _

/-- Counterexample input for C3: a response with an empty TITLE field. -/
def c3CexContent : Str :=
  ("EPISODE NUMBER: 1\nTITLE:\nCONTENT: x\nCLIFFHANGER: y").toList

/-- C3 counterexample: strategy 1 accepts a record whose required `title`
field is empty after trimming — the record is kept, not discarded, and no
further strategy is tried; it propagates into the extractor output
(splitter_agent.py lines 207-220 perform no required-field validation). -/
theorem c3_counterexample :
    parseWithSpecificMarkers c3CexContent 2
      = [⟨1, [], ("x").toList, ("y").toList⟩] ∧
    (parseEpisodes c3CexContent 2 (("O").toList)).any
      (fun e => e.title.isEmpty && !e.content.isEmpty) = true := by
  constructor
  · decide
  · decide

/-- C3 amended: only strategy 2 validates a required field before accepting a
candidate — an episode it returns always has content that is non-empty after
trimming (splitter_agent.py lines 262, 269); strategies 1 and 3 perform no
such check and can accept records with an empty required field, and no
strategy validates the title.  The cascade honours priority order
(splitter_agent.py lines 139-148): a nonempty strategy-1 result is taken as
is, and when strategy 1 yields nothing the nonempty strategy-2 result is
taken. -/
theorem c3_strategy2_content_nonempty (content : Str) (numEpisodes : Nat)
    (e : Episode) (hmem : e ∈ parseWithEpisodeSplitter content numEpisodes) :
    (e.content ≠ [] ∧ pyStrip e.content = e.content) ∧
    (¬ (parseWithSpecificMarkers content numEpisodes).isEmpty →
      tryStrategies content numEpisodes
        = parseWithSpecificMarkers content numEpisodes) ∧
    (parseWithSpecificMarkers content numEpisodes = [] →
      tryStrategies content numEpisodes
        = parseWithEpisodeSplitter content numEpisodes) := by
  have hb : parseWithEpisodeSplitter content numEpisodes ≠ [] :=
    List.ne_nil_of_mem hmem
  refine ⟨?main, ?prio, ?fall⟩
  case prio =>
    intro h1
    simp only [tryStrategies]
    rw [if_pos h1]
  case fall =>
    intro h1
    simp only [tryStrategies]
    rw [h1]
    rw [if_neg (by simp)]
    rw [if_pos (fun hc => hb (List.isEmpty_iff.mp hc))]
  have key : ∀ (i : Nat) (sect : Str), parseOneSection numEpisodes i sect = some e →
      e.content ≠ [] ∧ pyStrip e.content = e.content := by
    intro i sect hp
    unfold parseOneSection at hp
    set raw := (match reSearch s2ContentRe sect with
      | some m => capGet m 1
      | none => truncAtSub (dropThroughFirst (fun c => c = '\n') sect)
          (("CLIFFHANGER:").toList)) with hraw
    by_cases hempty : (pyStrip raw).isEmpty
    · rw [if_pos hempty] at hp
      exact absurd hp (by simp)
    · rw [if_neg hempty] at hp
      have he := Option.some_injective _ hp
      refine ⟨?_, ?_⟩
      · rw [← he]
        simpa using hempty
      · rw [← he]
        exact pyStrip_idem raw
  unfold parseWithEpisodeSplitter at hmem
  simp only [] at hmem
  split at hmem
  · split at hmem
    · exact absurd hmem (by simp)
    · rcases List.mem_filterMap.mp hmem with ⟨p, _, hp⟩
      exact key _ _ hp
  · rcases List.mem_filterMap.mp hmem with ⟨p, _, hp⟩
    exact key _ _ hp

/-- Concrete section-form response for the C3 witness. -/
def c3WitnessInput : Str :=
  ("EPISODE NUMBER: 1\nTITLE: A\nCONTENT: hello\nCLIFFHANGER: z").toList

/-- Concrete response without specific markers for the C3 witness: strategy
1 yields nothing on it, strategy 2 accepts one episode. -/
def c3WitnessInput2 : Str := ("Episode 1: T\nhello").toList

/-- Witness for C3 at concrete inputs: the episode strategy 2 extracts from
a section-form response has nonempty, trimmed content; on that response the
nonempty strategy-1 result wins the cascade, and on a response without
specific markers the cascade falls through to strategy 2. -/
theorem c3_witness :
    (((parseWithEpisodeSplitter c3WitnessInput 2).getD 0 default).content ≠ [] ∧
      tryStrategies c3WitnessInput 2 = parseWithSpecificMarkers c3WitnessInput 2) ∧
    tryStrategies c3WitnessInput2 2 = parseWithEpisodeSplitter c3WitnessInput2 2 :=
  ⟨⟨(c3_strategy2_content_nonempty c3WitnessInput 2
      ((parseWithEpisodeSplitter c3WitnessInput 2).getD 0 default) (by decide)).1.1,
    (c3_strategy2_content_nonempty c3WitnessInput 2
      ((parseWithEpisodeSplitter c3WitnessInput 2).getD 0 default) (by decide)).2.1
      (by decide)⟩,
   (c3_strategy2_content_nonempty c3WitnessInput2 2
      ((parseWithEpisodeSplitter c3WitnessInput2 2).getD 0 default) (by decide)).2.2
      (by decide)⟩

/-!
Claim C2.
-/

/-- The generic fallback episodes are sorted by number. -/
theorem genericEpisodes_sorted (numEpisodes : Nat) (outline : Str) :
    (genericEpisodes numEpisodes outline).Sorted numberLe := by
  unfold genericEpisodes
  rw [List.Sorted, List.pairwise_map]
  exact (List.pairwise_lt_range' 1 numEpisodes).imp (fun h => Nat.le_of_lt h)

/-- The final cliffhanger-clearing map leaves the generic fallback episodes
unchanged (the final generic episode already has an empty cliffhanger). -/
theorem genericEpisodes_clear (numEpisodes : Nat) (outline : Str) :
    (genericEpisodes numEpisodes outline).map
      (fun e => if e.number = numEpisodes then { e with cliffhanger := [] } else e)
      = genericEpisodes numEpisodes outline := by
  have h : ∀ e ∈ genericEpisodes numEpisodes outline,
      (if e.number = numEpisodes then { e with cliffhanger := [] } else e) = e := by
    intro e he
    rcases List.mem_map.mp he with ⟨i, _, hi⟩
    by_cases hn : e.number = numEpisodes
    · rw [if_pos hn]
      have hc : e.cliffhanger = [] := by
        rw [← hi] at hn ⊢
        unfold genericEpisode placeholderCliff at hn ⊢
        simp only at hn ⊢
        rw [if_pos hn]
      cases e
      simp_all
    · rw [if_neg hn]
  rw [List.map_congr_left h]
  simp

/-- When every strategy fails, the extractor returns exactly the generic
placeholder episodes. -/
theorem parseEpisodes_fallback (content : Str) (numEpisodes : Nat) (outline : Str)
    (h1 : parseWithSpecificMarkers content numEpisodes = [])
    (h2 : parseWithEpisodeSplitter content numEpisodes = [])
    (h3 : parseWithNumberTitle content numEpisodes = [])
    (h4 : parseWithLoosePattern content numEpisodes = []) :
    parseEpisodes content numEpisodes outline
      = genericEpisodes numEpisodes outline := by
  have htry : tryStrategies content numEpisodes = [] := by
    unfold tryStrategies
    rw [h1, h2, h3, h4]
    simp
  have hsort : sortByNumber (genericEpisodes numEpisodes outline)
      = genericEpisodes numEpisodes outline :=
    (genericEpisodes_sorted numEpisodes outline).insertionSort_eq
  unfold parseEpisodes
  rw [htry]
  simp only [List.isEmpty_nil, if_true, hsort, genericEpisodes_length,
    Nat.lt_irrefl, if_false]
  exact genericEpisodes_clear numEpisodes outline

/-- When the fallback finds no issue sections, every fallback result record
is the flagged parsing-error placeholder (or the list is empty). -/
theorem fallbackIssues_no_sections (text : Str) (plotOptions : List Str)
    (hf : reFindAll issueHeaderRe text = []) :
    ∀ iss ∈ fallbackIssues text plotOptions, iss = parsingErrorIssue := by
  intro iss hmem
  unfold fallbackIssues at hmem
  rw [hf] at hmem
  simp only [List.map_nil, List.nil_append, List.length_cons, List.length_nil] at hmem
  norm_num at hmem
  exact hmem.2.2

/-- C2: for every raw text input, the extractors return normally — in the
embedding every failure-prone step (regex parse, `int()`, JSON decode,
record validation) is wrapped exactly where the source installs a
`try/except`, so both extractors are total functions — and on total parse
failure (all four episode strategies empty; no JSON slice and no issue
sections) the episode extractor returns exactly the flagged generic
placeholder episodes and the issue extractor returns only the flagged
parsing-error placeholder (or the empty list for short or sentinel text). -/
theorem c2_extractors_never_raise_placeholders
    (content : Str) (numEpisodes : Nat) (outline : Str) (text : Str)
    (opts : List Str)
    (h1 : parseWithSpecificMarkers content numEpisodes = [])
    (h2 : parseWithEpisodeSplitter content numEpisodes = [])
    (h3 : parseWithNumberTitle content numEpisodes = [])
    (h4 : parseWithLoosePattern content numEpisodes = [])
    (hj : tryParseJsonIssues text opts = none)
    (hf : reFindAll issueHeaderRe text = []) :
    parseEpisodes content numEpisodes outline = genericEpisodes numEpisodes outline ∧
    (∀ e ∈ parseEpisodes content numEpisodes outline,
      e.title = placeholderTitle e.number ∧
      e.content = placeholderContent e.number outline) ∧
    (∀ iss ∈ parseIssuesFromResponse text opts, iss = parsingErrorIssue) := by
  have hgen := parseEpisodes_fallback content numEpisodes outline h1 h2 h3 h4
  refine ⟨hgen, ?_, ?_⟩
  · intro e he
    rw [hgen] at he
    rcases List.mem_map.mp he with ⟨i, _, hi⟩
    rw [← hi]
    exact ⟨rfl, rfl⟩
  · intro iss hmem
    unfold parseIssuesFromResponse at hmem
    rw [hj] at hmem
    exact fallbackIssues_no_sections text opts hf iss hmem

/-- Witness for C2 at concrete inputs: the empty response for the episode
extractor and a 29-character gibberish response for the issue extractor. -/
theorem c2_witness :
    parseEpisodes [] 2 (("O").toList) = genericEpisodes 2 (("O").toList) ∧
    (∀ e ∈ parseEpisodes [] 2 (("O").toList),
      e.title = placeholderTitle e.number ∧
      e.content = placeholderContent e.number (("O").toList)) ∧
    (∀ iss ∈ parseIssuesFromResponse (("asdf qwer zxcv uiop hjkl vbnm").toList) [],
      iss = parsingErrorIssue) :=
  c2_extractors_never_raise_placeholders [] 2 (("O").toList)
    (("asdf qwer zxcv uiop hjkl vbnm").toList) []
    (by decide) (by decide) (by decide) (by decide) (by decide) (by decide)

/-!
Helper lemma about the enhancement-context loop.  No theorem is stated
about the stage transition from the split step to the enhancement step of
`generate_story_pipeline`: the call at main.py line 417 passes four
arguments to the three-parameter `split_story` (splitter_agent.py line 54),
binding `num_episodes` twice, so the call raises `TypeError` on every run
before any episode record exists and the transition is unreachable in that
function.
-/

/-- The context-building loop produces one context per episode. -/
theorem buildContextsAux_length (all : List Episode) (l : List Episode) :
    ∀ (i : Nat) (s c : Str), (buildContextsAux all i l s c).length = l.length := by
  induction l with
  | nil => intro i s c; rfl
  | cons e rest ih => intro i s c; simp [buildContextsAux, ih]

/-!
Claim C9.
-/

/-- C9: the extractors are deterministic, with no dependence on hidden
mutable agent state: the splitter parsing phase reads none of the agent
fields, the issue-parsing output of the consistency checker is independent
of the accumulated knowledge graph, and re-running the check from the
updated checker state yields the identical issue list. -/
theorem c9_extractors_deterministic :
    (∀ (a1 a2 : StorySplitterAgent) (content : Str) (numEpisodes : Nat) (plot : Str),
      a1.splitStoryParse content numEpisodes plot
        = a2.splitStoryParse content numEpisodes plot) ∧
    (∀ (c1 c2 : ConsistencyChecker) (resp : Str) (oe po : List Str),
      (c1.checkPlotConsistency resp oe po).2 = (c2.checkPlotConsistency resp oe po).2) ∧
    (∀ (c : ConsistencyChecker) (resp : Str) (oe po : List Str),
      ((c.checkPlotConsistency resp oe po).1.checkPlotConsistency resp oe po).2
        = (c.checkPlotConsistency resp oe po).2) :=
  ⟨fun _ _ _ _ _ => rfl, fun _ _ _ _ _ => rfl, fun _ _ _ _ => rfl⟩

/-!
Claim C4.
-/

/-- Counterexample input for C4: a JSON response referring to plot option 7
in a batch of two options. -/
def c4CexText : Str :=
  ("[\x7b\"plot_option_index\": 7, \"issue_type\": \"t\", \"severity\": \"critical\", \"description\": \"d\"\x7d]").toList

/-- The two-option batch for the C4 counterexample. -/
def c4CexOpts : List Str := [("a").toList, ("b").toList]

set_option maxRecDepth 100000 in
/-- C4 counterexample: the returned issue carries plot_option_index 7,
outside `[0, 2)` — the JSON path (consistency_checker.py lines 117-137)
passes the index through without clamping or nulling it. -/
theorem c4_counterexample :
    (parseIssuesFromResponse c4CexText c4CexOpts).map
      ConsistencyIssue.plot_option_index = [some 7] ∧
    c4CexOpts.length = 2 := by
  exact ⟨by decide, by decide⟩

/-- C4 amended, JSON-path half: the decoded index is passed through
unchanged (no clamping or nulling), and the text field is `None`, the
supplied JSON text, or a plot option read at an index inside
`[0, batch_size)`. -/
theorem issueFromItem_pass_through (opts : List Str) (fields : List (Str × Json))
    (issue : ConsistencyIssue) (h : issueFromItem opts (.obj fields) = .ok issue) :
    (∀ n : Int, issue.plot_option_index = some n ↔
      jsonGet fields (("plot_option_index").toList) = some (.num n)) ∧
    (issue.plot_option_text = none ∨
     (∃ s, jsonGet fields (("plot_option_text").toList) = some (.str s) ∧
        issue.plot_option_text = some s) ∨
     (∃ n : Int, issue.plot_option_index = some n ∧ 0 ≤ n ∧
        n < (opts.length : Int) ∧
        issue.plot_option_text = some (opts.getD n.toNat []))) := by
  unfold issueFromItem at h
  simp only [] at h
  split at h
  case _ idx txt ty sev desc sugg hidx htxt hty hsev hdesc hsugg =>
    have hissue := Except.ok.inj h
    subst hissue
    constructor
    · intro n
      simp only []
      split at hidx
      · next heq =>
        cases Except.ok.inj hidx
        rw [heq]
        simp
      · next m heq =>
        cases Except.ok.inj hidx
        rw [heq]
        simp
      · exact absurd hidx (by simp)
    · simp only []
      rcases hidxv : idx with _ | i
      · subst hidxv
        split at htxt
        · next heq =>
          cases Except.ok.inj htxt
          left; rfl
        · next s heq =>
          cases Except.ok.inj htxt
          right; left
          exact ⟨s, heq, rfl⟩
        · exact absurd htxt (by simp)
      · subst hidxv
        rcases htxtv : txt with _ | s
        · subst htxtv
          dsimp only []
          by_cases hrange : 0 ≤ i ∧ i < (opts.length : Int)
          · rw [if_pos hrange]
            right; right
            exact ⟨i, rfl, hrange.1, hrange.2, rfl⟩
          · rw [if_neg hrange]
            left; rfl
        · subst htxtv
          split at htxt
          · next heq => exact absurd (Except.ok.inj htxt) (by simp)
          · next s0 heq =>
            cases Option.some.inj (Except.ok.inj htxt)
            right; left
            exact ⟨_, heq, rfl⟩
          · exact absurd htxt (by simp)
  · exact absurd h (by simp)

/-- C4 amended, fallback-path half: the plot-option text is read from the
batch only at an index inside `[0, batch_size)` — otherwise it comes from
quoted text or stays `None` — and an extracted index at or above the batch
size is decremented by one (the 1-indexed-to-0-indexed adjustment of
consistency_checker.py lines 163-164), not clamped into range. -/
theorem fallbackSection_guarded_lookup (opts : List Str) (sect : Str) :
    ((fallbackSection opts sect).plot_option_text = none ∨
     (∃ n : Nat, (fallbackSection opts sect).plot_option_index = some (n : Int) ∧
        n < opts.length ∧
        (fallbackSection opts sect).plot_option_text = some (opts.getD n [])) ∨
     (∃ m, reSearch quotedRe sect = some m ∧
        (fallbackSection opts sect).plot_option_text = some (capGet m 1))) ∧
    (∀ n : Nat,
      (reSearch plotOptRefRe sect).map (fun m => digitsToNat (capGet m 1)) = some n →
      opts.length ≤ n → 0 < n →
      (fallbackSection opts sect).plot_option_index = some ((n : Int) - 1)) := by
  rcases h0 : (reSearch plotOptRefRe sect).map (fun m => digitsToNat (capGet m 1))
    with _ | n
  · refine ⟨?_, ?_⟩
    · rcases hq : reSearch quotedRe sect with _ | m
      · left
        unfold fallbackSection
        simp [h0, hq]
      · right; right
        refine ⟨m, rfl, ?_⟩
        unfold fallbackSection
        simp [h0, hq]
    · intro n hmap
      exact absurd hmap (by simp)
  · refine ⟨?_, ?_⟩
    · by_cases hge : n ≥ opts.length
      · by_cases hpos : n > 0
        · by_cases hlt : n - 1 < opts.length
          · right; left
            refine ⟨n - 1, ?_, hlt, ?_⟩
            · unfold fallbackSection
              simp [h0, hge, hpos]
            · unfold fallbackSection
              simp [h0, hge, hpos, hlt]
          · rcases hq : reSearch quotedRe sect with _ | m
            · left
              unfold fallbackSection
              simp [h0, hge, hpos, hlt, hq]
            · right; right
              refine ⟨m, rfl, ?_⟩
              unfold fallbackSection
              simp [h0, hge, hpos, hlt, hq]
        · have hn0 : n = 0 := by omega
          have hlen0 : opts.length = 0 := by omega
          rcases hq : reSearch quotedRe sect with _ | m
          · left
            unfold fallbackSection
            simp [h0, hge, hpos, hn0, hlen0, hq]
          · right; right
            refine ⟨m, rfl, ?_⟩
            unfold fallbackSection
            simp [h0, hge, hpos, hn0, hlen0, hq]
      · right; left
        refine ⟨n, ?_, by omega, ?_⟩
        · unfold fallbackSection
          simp [h0, hge]
        · unfold fallbackSection
          simp [h0, hge]
    · intro n2 hmap hge hpos
      cases Option.some.inj hmap
      unfold fallbackSection
      have hge2 : n ≥ opts.length := hge
      simp [h0, hge2, hpos]

/-- C4 amended: on both parsing paths, plot-option lookups are range-guarded
(a returned record's text is filled from the batch only at an index inside
`[0, batch_size)`, so no out-of-range list access occurs), but out-of-range
index fields are not clamped or nulled: the JSON path passes the decoded
index through unchanged, and the fallback path only decrements an index at
or above the batch size by one, which can leave it out of range. -/
theorem c4_guarded_lookup_no_clamping :
    (∀ (opts : List Str) (fields : List (Str × Json)) (issue : ConsistencyIssue),
      issueFromItem opts (.obj fields) = .ok issue →
      (∀ n : Int, issue.plot_option_index = some n ↔
        jsonGet fields (("plot_option_index").toList) = some (.num n)) ∧
      (issue.plot_option_text = none ∨
       (∃ s, jsonGet fields (("plot_option_text").toList) = some (.str s) ∧
          issue.plot_option_text = some s) ∨
       (∃ n : Int, issue.plot_option_index = some n ∧ 0 ≤ n ∧
          n < (opts.length : Int) ∧
          issue.plot_option_text = some (opts.getD n.toNat [])))) ∧
    (∀ (opts : List Str) (sect : Str),
      ((fallbackSection opts sect).plot_option_text = none ∨
       (∃ n : Nat, (fallbackSection opts sect).plot_option_index = some (n : Int) ∧
          n < opts.length ∧
          (fallbackSection opts sect).plot_option_text = some (opts.getD n [])) ∨
       (∃ m, reSearch quotedRe sect = some m ∧
          (fallbackSection opts sect).plot_option_text = some (capGet m 1))) ∧
      (∀ n : Nat,
        (reSearch plotOptRefRe sect).map (fun m => digitsToNat (capGet m 1)) = some n →
        opts.length ≤ n → 0 < n →
        (fallbackSection opts sect).plot_option_index = some ((n : Int) - 1))) :=
  ⟨issueFromItem_pass_through, fallbackSection_guarded_lookup⟩

/-- Concrete JSON object for the C4 witness. -/
def c4WitnessFields : List (Str × Json) := [(("plot_option_index").toList, .num 1)]

/-- The issue the JSON path produces from `c4WitnessFields` over the
two-option batch. -/
def c4WitnessIssue : ConsistencyIssue :=
  ⟨some 1, some (("b").toList), ("Unknown").toList, ("warning").toList,
   ("No description provided").toList, []⟩

/-- Witness for C4 at a concrete input: an in-range index 1 in a two-option
batch passes through unchanged and its text is the batch element. -/
theorem c4_witness :
    (∀ n : Int, c4WitnessIssue.plot_option_index = some n ↔
      jsonGet c4WitnessFields (("plot_option_index").toList) = some (.num n)) ∧
    (c4WitnessIssue.plot_option_text = none ∨
     (∃ s, jsonGet c4WitnessFields (("plot_option_text").toList) = some (.str s) ∧
        c4WitnessIssue.plot_option_text = some s) ∨
     (∃ n : Int, c4WitnessIssue.plot_option_index = some n ∧ 0 ≤ n ∧
        n < (c4CexOpts.length : Int) ∧
        c4WitnessIssue.plot_option_text = some (c4CexOpts.getD n.toNat []))) :=
  c4_guarded_lookup_no_clamping.1 c4CexOpts c4WitnessFields c4WitnessIssue rfl

/-!
Claim C1.
-/

/-- Strict index order on dispatcher result pairs. -/
def keyLt (a b : Nat × Str) : Prop := a.1 < b.1

instance : IsAntisymm (Nat × Str) keyLt :=
  ⟨fun _ _ h1 h2 => absurd (Nat.lt_trans h1 h2) (Nat.lt_irrefl _)⟩

/-- The canonical dispatcher output the specification describes: one pair
per chunk index, in ascending index order. -/
def canonicalOutput (unit : Str → Except Str Str) (chunks : List Str) :
    List (Nat × Str) :=
  (List.range chunks.length).map (fun i => (i, translateChunk unit (chunks.getD i [])))

/-- Whatever the completion order, the sorted collection of the translator
dispatcher equals the canonical index-ordered output. -/
theorem dispatchOutput_canonical (unit : Str → Except Str Str) (chunks : List Str)
    (order : List Nat) (hperm : order.Perm (List.range chunks.length)) :
    dispatchOutput unit chunks order = canonicalOutput unit chunks := by
  have hcperm : (collectTranslations unit chunks order).Perm
      (canonicalOutput unit chunks) :=
    hperm.map (fun i => (i, translateChunk unit (chunks.getD i [])))
  have hsperm : (dispatchOutput unit chunks order).Perm (canonicalOutput unit chunks) :=
    (List.perm_insertionSort keyLe _).trans hcperm
  have hcanNodup : ((canonicalOutput unit chunks).map Prod.fst).Nodup := by
    unfold canonicalOutput
    rw [List.map_map]
    have hid : ∀ x ∈ List.range chunks.length,
        (Prod.fst ∘ fun i => (i, translateChunk unit (chunks.getD i []))) x = id x :=
      fun x _ => rfl
    rw [List.map_congr_left hid, List.map_id]
    exact List.nodup_range chunks.length
  have hSNodup : ((dispatchOutput unit chunks order).map Prod.fst).Nodup :=
    hcanNodup.perm (hsperm.map Prod.fst).symm
  have hSne : (dispatchOutput unit chunks order).Pairwise (fun a b => a.1 ≠ b.1) := by
    rw [List.Nodup, List.pairwise_map] at hSNodup
    exact hSNodup
  have hSsortedLe : (dispatchOutput unit chunks order).Pairwise keyLe :=
    List.sorted_insertionSort keyLe _
  have hSsortedLt : (dispatchOutput unit chunks order).Pairwise keyLt := by
    have := hSsortedLe.and hSne
    exact this.imp (fun h => Nat.lt_of_le_of_ne h.1 h.2)
  have hCsortedLt : (canonicalOutput unit chunks).Pairwise keyLt := by
    unfold canonicalOutput
    rw [List.pairwise_map]
    exact List.pairwise_lt_range chunks.length
  exact List.eq_of_perm_of_sorted hsperm hSsortedLt hCsortedLt

/-- Overwriting insert then lookup at the same key yields the value. -/
theorem dictGet_insert_same {κ β : Type} [DecidableEq κ] (d : List (κ × β))
    (k : κ) (v : β) : dictGet (dictInsert d k v) k = some v := by
  unfold dictInsert
  by_cases h : d.any (fun p => p.1 = k)
  · rw [if_pos h]
    induction d with
    | nil => simp at h
    | cons hd tl ih =>
      by_cases hk : hd.1 = k
      · simp [dictGet, List.find?_cons, hk]
      · simp only [List.any_cons] at h
        have htl : tl.any (fun p => p.1 = k) := by
          rcases Bool.or_eq_true_iff.mp h with h1 | h2
          · exact absurd (by simpa using h1) hk
          · exact h2
        have := ih htl
        simpa [dictGet, List.find?_cons, hk] using this
  · rw [if_neg h]
    induction d with
    | nil => simp [dictGet, List.find?_cons]
    | cons hd tl ih =>
      have hk : ¬ hd.1 = k := by
        intro hc
        exact h (by simp [List.any_cons, hc])
      have htl : ¬ tl.any (fun p => p.1 = k) := by
        intro hc
        exact h (by simp [List.any_cons, hc])
      have := ih htl
      simpa [dictGet, List.find?_cons, hk] using this

/-- Overwriting insert leaves other keys unchanged. -/
theorem dictGet_insert_other {κ β : Type} [DecidableEq κ] (d : List (κ × β))
    (k k2 : κ) (v : β) (hne : k2 ≠ k) :
    dictGet (dictInsert d k v) k2 = dictGet d k2 := by
  unfold dictInsert
  by_cases h : d.any (fun p => p.1 = k)
  · rw [if_pos h]
    clear h
    unfold dictGet
    induction d with
    | nil => rfl
    | cons hd tl ih =>
      by_cases hk : hd.1 = k
      · have h1 : ¬ (k = k2) := fun hc => hne hc.symm
        have h2 : ¬ (hd.1 = k2) := by rw [hk]; exact h1
        simp only [List.map_cons, if_pos hk, List.find?_cons, h1, h2,
          decide_eq_true_eq, if_neg]
        simpa using ih
      · simp only [List.map_cons, if_neg hk, List.find?_cons]
        by_cases h2 : hd.1 = k2
        · simp [h2]
        · simpa [h2] using ih
  · rw [if_neg h]
    unfold dictGet
    rw [List.find?_append]
    have hnone : List.find? (fun p => p.1 = k2) [(k, v)] = none := by
      simp
      exact fun hc => hne hc.symm
    rw [hnone]
    cases List.find? (fun p => p.1 = k2) d <;> simp

/-- A fold step sequence that never processes an episode with key `k`
leaves the entry at `k` unchanged. -/
theorem runEnhance_foldl_untouched (episodes : List Episode)
    (enhUnit : Episode → Except Str Str) (k : Nat) :
    ∀ (order : List Nat) (d : List (Nat × Str)),
    (∀ i ∈ order, ∀ v, enhUnit (episodes.getD i default) = .ok v →
      (episodes.getD i default).number ≠ k) →
    dictGet (order.foldl (enhanceStep episodes enhUnit) d) k = dictGet d k := by
  intro order
  induction order with
  | nil => intro d _; rfl
  | cons i rest ih =>
    intro d hall
    rw [List.foldl_cons]
    have hstep : dictGet (enhanceStep episodes enhUnit d i) k = dictGet d k := by
      unfold enhanceStep
      simp only []
      rcases hu : enhUnit (episodes.getD i default) with e | v
      · rfl
      · exact dictGet_insert_other d _ k v
          (fun hc => hall i (by simp) v hu hc.symm)
    rw [← hstep]
    exact ih _ (fun j hj => hall j (by simp [hj]))

/-- Distinct episode numbers at distinct positions. -/
theorem numbers_distinct (episodes : List Episode)
    (hnodup : (episodes.map Episode.number).Nodup) (i j : Nat)
    (hi : i < episodes.length) (hj : j < episodes.length) (hij : i ≠ j) :
    (episodes.getD i default).number ≠ (episodes.getD j default).number := by
  intro hc
  rw [List.getD_eq_getElem _ _ hi, List.getD_eq_getElem _ _ hj] at hc
  have hi2 : i < (episodes.map Episode.number).length := by simpa
  have hj2 : j < (episodes.map Episode.number).length := by simpa
  have htc : (episodes.map Episode.number)[i] = (episodes.map Episode.number)[j] := by
    simpa using hc
  exact hij ((List.Nodup.getElem_inj_iff hnodup).mp htc)

/-- With distinct episode numbers, an episode whose enhancement succeeds has
exactly its own value in the final map, whatever the completion order. -/
theorem runEnhanceDispatch_lookup (episodes : List Episode)
    (enhUnit : Episode → Except Str Str) (order : List Nat) (j : Nat)
    (hperm : order.Perm (List.range episodes.length))
    (hnodup : (episodes.map Episode.number).Nodup)
    (hj : j < episodes.length) (vj : Str)
    (hokj : enhUnit (episodes.getD j default) = .ok vj) :
    dictGet (runEnhanceDispatch episodes enhUnit order)
      ((episodes.getD j default).number) = some vj := by
  have hjmem : j ∈ order := hperm.mem_iff.mpr (List.mem_range.mpr hj)
  rcases List.append_of_mem hjmem with ⟨l1, l2, horder⟩
  have hnd : order.Nodup := hperm.nodup_iff.mpr (List.nodup_range _)
  have hl2nd : (j :: l2).Nodup := by
    rw [horder] at hnd
    exact hnd.of_append_right
  have hjnotl2 : j ∉ l2 := by
    intro hc
    exact (List.nodup_cons.mp hl2nd).1 hc
  have hordersub : ∀ i ∈ order, i < episodes.length := by
    intro i hi
    exact List.mem_range.mp (hperm.mem_iff.mp hi)
  unfold runEnhanceDispatch
  rw [horder, List.foldl_append, List.foldl_cons]
  have hstepj : ∀ D, enhanceStep episodes enhUnit D j
      = dictInsert D (episodes.getD j default).number vj := by
    intro D
    unfold enhanceStep
    simp only []
    rw [hokj]
  rw [hstepj]
  refine Eq.trans (runEnhance_foldl_untouched episodes enhUnit _ l2 _ ?_)
    (dictGet_insert_same _ _ _)
  intro i hi v _ hc
  have hiorder : i ∈ order := by
    rw [horder]
    simp [hi]
  have hij : i ≠ j := fun hc2 => hjnotl2 (hc2 ▸ hi)
  exact numbers_distinct episodes hnodup i j (hordersub i hiorder) hj hij hc

/-- An episode whose enhancement raises leaves no entry in the final map. -/
theorem runEnhanceDispatch_error_missing (episodes : List Episode)
    (enhUnit : Episode → Except Str Str) (order : List Nat) (j : Nat)
    (hperm : order.Perm (List.range episodes.length))
    (hnodup : (episodes.map Episode.number).Nodup)
    (hj : j < episodes.length) (err : Str)
    (herrj : enhUnit (episodes.getD j default) = .error err) :
    dictGet (runEnhanceDispatch episodes enhUnit order)
      ((episodes.getD j default).number) = none := by
  unfold runEnhanceDispatch
  rw [runEnhance_foldl_untouched episodes enhUnit _ order [] ?_]
  · rfl
  · intro i hi v hok hc
    have hilt : i < episodes.length := List.mem_range.mp (hperm.mem_iff.mp hi)
    by_cases hij : i = j
    · subst hij
      rw [hok] at herrj
      exact absurd herrj (by simp)
    · exact numbers_distinct episodes hnodup i j hilt hj hij hc

/-- C1: for every batch of N work items handed to a parallel dispatcher, the
assembled output has exactly one entry per item, ordered by the items'
original indices, for every completion order of the concurrent workers: the
translator dispatcher sorts its collected pairs back to the canonical
index-ordered sequence (translator_agent.py lines 133-154), and the
enhancement dispatcher keyed by episode number gives each episode its own
result under the per-episode readout, provided the episode numbers are
distinct within the batch and no unit fails (failure is claim C6). -/
theorem c1_dispatchers_ordered_by_index :
    (∀ (unit : Str → Except Str Str) (chunks : List Str) (order : List Nat),
      order.Perm (List.range chunks.length) →
      dispatchOutput unit chunks order = canonicalOutput unit chunks ∧
      (dispatchOutput unit chunks order).length = chunks.length ∧
      (∀ j, j < chunks.length →
        ((dispatchOutput unit chunks order).getD j (0, [])).1 = j)) ∧
    (∀ (episodes : List Episode) (enhUnit : Episode → Except Str Str)
       (g : Episode → Str) (order : List Nat),
      order.Perm (List.range episodes.length) →
      (∀ e, enhUnit e = .ok (g e)) →
      (episodes.map Episode.number).Nodup →
      enhanceReadout episodes (runEnhanceDispatch episodes enhUnit order)
        = episodes.map (fun e => some (g e))) := by
  constructor
  · intro unit chunks order hperm
    have hcan := dispatchOutput_canonical unit chunks order hperm
    refine ⟨hcan, ?_, ?_⟩
    · rw [hcan]
      unfold canonicalOutput
      simp
    · intro j hj
      rw [hcan]
      unfold canonicalOutput
      rw [List.getD_eq_getElem _ _ (by simpa using hj)]
      simp
  · intro episodes enhUnit g order hperm hok hnodup
    unfold enhanceReadout
    have hpt : ∀ e ∈ episodes,
        dictGet (runEnhanceDispatch episodes enhUnit order) e.number
          = some (g e) := by
      intro e he
      rcases List.mem_iff_getElem.mp he with ⟨j, hj, hje⟩
      have hgetD : episodes.getD j default = e := by
        rw [List.getD_eq_getElem _ _ hj, hje]
      have hlook := runEnhanceDispatch_lookup episodes enhUnit order j hperm
        hnodup hj (g e) (by rw [hgetD]; exact hok e)
      rw [hgetD] at hlook
      exact hlook
    exact List.map_congr_left (fun e he => hpt e he)

/-- Concrete chunk batch for the C1 witness. -/
def c1WitChunks : List Str := [("a").toList, ("b").toList, ("c").toList]

/-- Concrete episode batch for the C1 witness. -/
def c1WitEpisodes : List Episode :=
  [⟨1, ("A").toList, ("x").toList, []⟩, ⟨2, ("B").toList, ("y").toList, []⟩]

/-- Witness for C1 at concrete inputs: three chunks completing in the order
2, 0, 1, and two episodes completing in reverse order. -/
theorem c1_witness :
    (dispatchOutput Except.ok c1WitChunks [2, 0, 1]
        = canonicalOutput Except.ok c1WitChunks ∧
      (dispatchOutput Except.ok c1WitChunks [2, 0, 1]).length = c1WitChunks.length ∧
      (∀ j, j < c1WitChunks.length →
        ((dispatchOutput Except.ok c1WitChunks [2, 0, 1]).getD j (0, [])).1 = j)) ∧
    enhanceReadout c1WitEpisodes
        (runEnhanceDispatch c1WitEpisodes (fun e => .ok e.title) [1, 0])
      = c1WitEpisodes.map (fun e => some e.title) :=
  ⟨c1_dispatchers_ordered_by_index.1 Except.ok c1WitChunks [2, 0, 1] (by decide),
   c1_dispatchers_ordered_by_index.2 c1WitEpisodes (fun e => .ok e.title)
     (fun e => e.title) [1, 0] (by decide) (fun _ => rfl) (by decide)⟩

/-!
Claim C6.
-/

/-- Concrete episode batch for the C6 counterexample. -/
def c6CexEpisodes : List Episode :=
  [⟨1, ("A").toList, ("ca").toList, []⟩, ⟨2, ("B").toList, ("cb").toList, []⟩]

/-- Unit function failing on episode 1 only. -/
def c6CexUnit : Episode → Except Str Str :=
  fun e => if e.number = 1 then .error (("boom").toList)
    else .ok (("enhanced").toList)

/-- C6 counterexample: at the enhancement dispatcher a failing work item
produces no entry at all — the readout at its position is `None`, not a
tagged Error result at its index — while the sibling completes normally
(main.py lines 489-491 only print the exception and store nothing). -/
theorem c6_counterexample :
    enhanceReadout c6CexEpisodes
        (runEnhanceDispatch c6CexEpisodes c6CexUnit [0, 1])
      = [none, some (("enhanced").toList)] := by decide

/-- C6 amended: a failing work item never aborts its siblings at either
dispatch site, but the failure surfaces differently: the translator
dispatcher records a tagged error string at the failing item's original
index (translator_agent.py lines 109-111), while the enhancement dispatcher
omits the failing episode's entry from the result map — downstream readers
find `None` and fall back — with siblings unaffected (main.py lines
485-491). -/
theorem c6_failing_item_isolated :
    (∀ (unit : Str → Except Str Str) (chunks : List Str) (order : List Nat)
       (j : Nat) (err : Str),
      order.Perm (List.range chunks.length) → j < chunks.length →
      unit (chunks.getD j []) = .error err →
      ((dispatchOutput unit chunks order).getD j (0, [])).2
        = ("[Translation error: ").toList ++ err ++ ("]").toList ∧
      (dispatchOutput unit chunks order).length = chunks.length ∧
      (∀ i, i < chunks.length → ∀ v, unit (chunks.getD i []) = .ok v →
        (dispatchOutput unit chunks order).getD i (0, []) = (i, v))) ∧
    (∀ (episodes : List Episode) (enhUnit : Episode → Except Str Str)
       (order : List Nat) (j : Nat) (err : Str),
      order.Perm (List.range episodes.length) →
      (episodes.map Episode.number).Nodup →
      j < episodes.length →
      enhUnit (episodes.getD j default) = .error err →
      (enhanceReadout episodes
          (runEnhanceDispatch episodes enhUnit order)).getD j (some []) = none ∧
      (∀ i, i < episodes.length → ∀ v,
        enhUnit (episodes.getD i default) = .ok v →
        (enhanceReadout episodes
          (runEnhanceDispatch episodes enhUnit order)).getD i none = some v)) := by
  constructor
  · intro unit chunks order j err hperm hj herr
    have hcan := dispatchOutput_canonical unit chunks order hperm
    refine ⟨?_, ?_, ?_⟩
    · rw [hcan]
      unfold canonicalOutput
      rw [List.getD_eq_getElem _ _ (by simpa using hj)]
      simp only [List.getElem_map, List.getElem_range]
      unfold translateChunk
      rw [herr]
    · rw [hcan]
      unfold canonicalOutput
      simp
    · intro i hi v hok
      rw [hcan]
      unfold canonicalOutput
      rw [List.getD_eq_getElem _ _ (by simpa using hi)]
      simp only [List.getElem_map, List.getElem_range]
      unfold translateChunk
      rw [hok]
  · intro episodes enhUnit order j err hperm hnodup hj herr
    have hread : ∀ (i : Nat) (hi : i < episodes.length) (dflt : Option Str),
        (enhanceReadout episodes
          (runEnhanceDispatch episodes enhUnit order)).getD i dflt
        = dictGet (runEnhanceDispatch episodes enhUnit order)
            ((episodes.getD i default).number) := by
      intro i hi dflt
      unfold enhanceReadout
      rw [List.getD_eq_getElem _ _ (by simpa using hi)]
      rw [List.getD_eq_getElem _ _ hi]
      simp
    refine ⟨?_, ?_⟩
    · rw [hread j hj]
      exact runEnhanceDispatch_error_missing episodes enhUnit order j hperm
        hnodup hj err herr
    · intro i hi v hok
      rw [hread i hi]
      exact runEnhanceDispatch_lookup episodes enhUnit order i hperm hnodup
        hi v hok

/-- Concrete five-chunk batch for the C6 witness (Scenario C). -/
def c6WitChunks : List Str :=
  [("c0").toList, ("c1").toList, ("c2").toList, ("c3").toList, ("c4").toList]

/-- Unit function raising a transport error on the third chunk only. -/
def c6WitUnit : Str → Except Str Str :=
  fun c => if c = ("c2").toList then .error (("rate limit").toList) else .ok c

/-- Witness for C6 at a concrete input: five chunks, workers completing in
the order 4, 2, 0, 3, 1, one transport error — the output has five entries,
four successes in place and the tagged error at index 2. -/
theorem c6_witness :
    ((dispatchOutput c6WitUnit c6WitChunks [4, 2, 0, 3, 1]).getD 2 (0, [])).2
      = ("[Translation error: ").toList ++ ("rate limit").toList ++ ("]").toList ∧
    (dispatchOutput c6WitUnit c6WitChunks [4, 2, 0, 3, 1]).length
      = c6WitChunks.length ∧
    (∀ i, i < c6WitChunks.length → ∀ v,
      c6WitUnit (c6WitChunks.getD i []) = .ok v →
      (dispatchOutput c6WitUnit c6WitChunks [4, 2, 0, 3, 1]).getD i (0, [])
        = (i, v)) :=
  c6_failing_item_isolated.1 c6WitUnit c6WitChunks [4, 2, 0, 3, 1] 2
    (("rate limit").toList) (by decide) (by decide) rfl

/-!
Claim C10.
-/

/-- Sum of the per-paragraph word counts of a chunk group — the quantity the
source tracks in `current_word_count` (translator_agent.py lines 73, 84). -/
def sumWC (g : List Str) : Nat := (g.map wordCount).sum

/-- Unfolding of `joinNN` on a cons with nonempty tail. -/
theorem joinNN_cons (p : Str) (g : List Str) (h : g ≠ []) :
    joinNN (p :: g) = p ++ nn ++ joinNN g := by
  cases g with
  | nil => exact absurd rfl h
  | cons q rest => rfl

/-- Concatenating joins. -/
theorem joinNN_append (a b : List Str) (ha : a ≠ []) (hb : b ≠ []) :
    joinNN (a ++ b) = joinNN a ++ nn ++ joinNN b := by
  induction a with
  | nil => exact absurd rfl ha
  | cons p a' ih =>
    cases a' with
    | nil =>
      rw [List.cons_append, List.nil_append, joinNN_cons p b hb]
      rfl
    | cons q a'' =>
      rw [List.cons_append, joinNN_cons p _ (by simp),
        joinNN_cons p (q :: a'') (by simp), ih (by simp)]
      simp [List.append_assoc]

/-- A flatten of nonempty groups with at least one group is nonempty. -/
theorem flatten_ne_nil (gs : List (List Str)) (hne : gs ≠ [])
    (h : ∀ g ∈ gs, g ≠ []) : gs.flatten ≠ [] := by
  cases gs with
  | nil => exact absurd rfl hne
  | cons g gs' =>
    rw [List.flatten_cons]
    have := h g (by simp)
    intro hc
    rcases List.append_eq_nil.mp hc with ⟨h1, _⟩
    exact this h1

/-- Joining the per-group joins equals joining the flattened paragraph
list, for nonempty groups. -/
theorem joinNN_map_flatten (gs : List (List Str)) (h : ∀ g ∈ gs, g ≠ []) :
    joinNN (gs.map joinNN) = joinNN gs.flatten := by
  induction gs with
  | nil => rfl
  | cons g gs' ih =>
    cases gs' with
    | nil => simp [joinNN]
    | cons g2 gs'' =>
      have hg : g ≠ [] := h g (by simp)
      have hflat : (g2 :: gs'').flatten ≠ [] :=
        flatten_ne_nil _ (by simp) (fun x hx => h x (by simp [hx]))
      rw [List.map_cons, joinNN_cons _ _ (by simp),
        ih (fun x hx => h x (by simp [hx]))]
      conv_rhs => rw [List.flatten_cons]
      rw [joinNN_append g _ hg hflat]

/-- Scanning across a blank-line separator splits the word scan. -/
theorem pyWordsAux_sep (b : Str) : ∀ (a cur : Str),
    pyWordsAux (a ++ nn ++ b) cur = pyWordsAux a cur ++ pyWordsAux b [] := by
  intro a
  induction a with
  | nil =>
    intro cur
    show pyWordsAux ('\n' :: '\n' :: b) cur = pyWordsAux [] cur ++ pyWordsAux b []
    by_cases hc : cur.isEmpty <;>
      simp [pyWordsAux, pySpace, hc]
  | cons c a' ih =>
    intro cur
    show pyWordsAux (c :: (a' ++ nn ++ b)) cur
      = pyWordsAux (c :: a') cur ++ pyWordsAux b []
    by_cases hsp : pySpace c <;> by_cases hc : cur.isEmpty <;>
      simp [pyWordsAux, hsp, hc, ← List.append_assoc, ih]

/-- The word count of a joined group is the sum of the word counts. -/
theorem wordCount_joinNN (g : List Str) : wordCount (joinNN g) = sumWC g := by
  induction g with
  | nil => rfl
  | cons p g' ih =>
    cases g' with
    | nil => simp [joinNN, sumWC]
    | cons q g'' =>
      rw [joinNN_cons p _ (by simp)]
      unfold wordCount pyWords
      rw [pyWordsAux_sep]
      rw [List.length_append]
      have ih2 := ih
      unfold wordCount pyWords at ih2
      rw [ih2]
      simp [sumWC, wordCount, pyWords]

/-- The chunk groups flatten back to the accumulated paragraphs: nothing is
lost, duplicated, or reordered. -/
theorem chunksAux_flatten (maxSize : Nat) : ∀ (ps : List Str)
    (chunks : List (List Str)) (cur : List Str) (cnt : Nat),
    (chunksAux ps chunks cur cnt maxSize).flatten
      = chunks.flatten ++ cur ++ ps := by
  intro ps
  induction ps with
  | nil =>
    intro chunks cur cnt
    unfold chunksAux
    by_cases hc : cur.isEmpty
    · have : cur = [] := List.isEmpty_iff.mp hc
      simp [hc, this]
    · simp [hc]
  | cons p ps' ih =>
    intro chunks cur cnt
    unfold chunksAux
    by_cases hcond : cnt + wordCount p > maxSize ∧ ¬ cur.isEmpty
    · rw [if_pos hcond, ih]
      simp
    · rw [if_neg hcond, ih]
      simp

/-- Every chunk group is nonempty. -/
theorem chunksAux_ne_nil (maxSize : Nat) : ∀ (ps : List Str)
    (chunks : List (List Str)) (cur : List Str) (cnt : Nat),
    (∀ g ∈ chunks, g ≠ []) →
    ∀ g ∈ chunksAux ps chunks cur cnt maxSize, g ≠ [] := by
  intro ps
  induction ps with
  | nil =>
    intro chunks cur cnt hch g hg
    unfold chunksAux at hg
    by_cases hc : cur.isEmpty
    · rw [if_pos hc] at hg
      exact hch g hg
    · rw [if_neg hc] at hg
      rcases List.mem_append.mp hg with h1 | h2
      · exact hch g h1
      · have : g = cur := by simpa using h2
        rw [this]
        simpa using hc
  | cons p ps' ih =>
    intro chunks cur cnt hch g hg
    unfold chunksAux at hg
    by_cases hcond : cnt + wordCount p > maxSize ∧ ¬ cur.isEmpty
    · rw [if_pos hcond] at hg
      refine ih _ _ _ ?_ g hg
      intro g2 hg2
      rcases List.mem_append.mp hg2 with h1 | h2
      · exact hch g2 h1
      · have : g2 = cur := by simpa using h2
        rw [this]
        simpa using hcond.2
    · rw [if_neg hcond] at hg
      exact ih _ _ _ hch g hg

/-- The word-count bound: every multi-paragraph chunk group respects the
maximum (the single-paragraph exception is an oversized paragraph placed
alone). -/
theorem chunksAux_bound (maxSize : Nat) : ∀ (ps : List Str)
    (chunks : List (List Str)) (cur : List Str),
    (∀ g ∈ chunks, 1 < g.length → sumWC g ≤ maxSize) →
    (1 < cur.length → sumWC cur ≤ maxSize) →
    ∀ g ∈ chunksAux ps chunks cur (sumWC cur) maxSize,
      1 < g.length → sumWC g ≤ maxSize := by
  intro ps
  induction ps with
  | nil =>
    intro chunks cur hch hcur g hg
    unfold chunksAux at hg
    by_cases hc : cur.isEmpty
    · rw [if_pos hc] at hg
      exact hch g hg
    · rw [if_neg hc] at hg
      rcases List.mem_append.mp hg with h1 | h2
      · exact hch g h1
      · have : g = cur := by simpa using h2
        rw [this]
        exact hcur
  | cons p ps' ih =>
    intro chunks cur hch hcur g hg
    unfold chunksAux at hg
    by_cases hcond : sumWC cur + wordCount p > maxSize ∧ ¬ cur.isEmpty
    · rw [if_pos hcond] at hg
      have hone : sumWC [p] = wordCount p := by simp [sumWC]
      rw [← hone] at hg
      refine ih _ _ ?_ ?_ g hg
      · intro g2 hg2
        rcases List.mem_append.mp hg2 with h1 | h2
        · exact hch g2 h1
        · have : g2 = cur := by simpa using h2
          rw [this]
          exact hcur
      · intro hlen
        simp at hlen
    · rw [if_neg hcond] at hg
      have hsum : sumWC cur + wordCount p = sumWC (cur ++ [p]) := by
        simp [sumWC]
      rw [hsum] at hg
      refine ih _ _ hch ?_ g hg
      intro hlen
      by_cases hc : cur.isEmpty
      · have : cur = [] := List.isEmpty_iff.mp hc
        rw [this] at hlen
        simp at hlen
      · have hle : ¬ (sumWC cur + wordCount p > maxSize) := by
          intro hgt
          exact hcond ⟨hgt, hc⟩
        rw [← hsum]
        omega

/-- No two consecutive newline characters occur in the string. -/
def noDD : Str → Bool
  | [] => true
  | _ :: [] => true
  | c :: c2 :: rest => !(c = '\n' && c2 = '\n') && noDD (c2 :: rest)

/-- A tail of a double-newline-free string is double-newline-free. -/
theorem noDD_tail (c : Char) (rest : Str) (h : noDD (c :: rest)) : noDD rest := by
  cases rest with
  | nil => rfl
  | cons c2 r2 =>
    unfold noDD at h
    exact (Bool.and_eq_true_iff.mp h).2

/-- Appending a character preserves freedom from double newlines when it
does not extend a trailing newline. -/
theorem noDD_append_one (xs : Str) (c : Char) (h : noDD xs)
    (hlast : xs.getLast? = some '\n' → ¬ c = '\n') : noDD (xs ++ [c]) := by
  induction xs with
  | nil => rfl
  | cons x rest ih =>
    cases rest with
    | nil =>
      show (!(x = '\n' && c = '\n') && noDD (c :: [])) = true
      have hnc : noDD (c :: []) = true := rfl
      rw [hnc, Bool.and_true]
      by_cases hx : x = '\n'
      · have hc := hlast (by simp [hx])
        simp [hx, hc]
      · simp [hx]
    | cons y r2 =>
      show noDD (x :: ((y :: r2) ++ [c])) = true
      have hh : ¬ (x = '\n' ∧ y = '\n') := by
        have := h
        unfold noDD at this
        rcases Bool.and_eq_true_iff.mp this with ⟨h1, _⟩
        intro hc
        rw [hc.1, hc.2] at h1
        simp at h1
      have htl : noDD ((y :: r2) ++ [c]) := by
        apply ih (noDD_tail x _ h)
        intro hl
        apply hlast
        rw [List.getLast?_cons_cons]
        exact hl
      show (!(x = '\n' && y = '\n') && noDD (y :: (r2 ++ [c]))) = true
      rw [Bool.and_eq_true_iff]
      constructor
      · by_cases hx : x = '\n' <;> by_cases hy : y = '\n' <;>
          simp [hx, hy] at hh ⊢
      · simpa using htl

/-- The split never returns an empty part list. -/
theorem spAux_ne_nil : ∀ (rem cur : Str), spAux rem cur ≠ [] := by
  intro rem cur
  induction rem, cur using spAux.induct with
  | case1 cur => simp [spAux]
  | case2 c rest cur h ih =>
    rw [spAux, if_pos h]
    simp
  | case3 c rest cur h ih =>
    rw [spAux, if_neg h]
    exact ih

/-- Every part produced by the split is free of double newlines. -/
theorem spAux_noDD : ∀ (rem cur : Str), noDD cur.reverse →
    (cur.head? = some '\n' → rem.head? ≠ some '\n') →
    ∀ p ∈ spAux rem cur, noDD p := by
  intro rem cur
  induction rem, cur using spAux.induct with
  | case1 cur =>
    intro h1 _ p hp
    simp only [spAux, List.mem_singleton] at hp
    rw [hp]
    exact h1
  | case2 c rest cur h ih =>
    intro h1 h2 p hp
    rw [spAux, if_pos h] at hp
    rcases List.mem_cons.mp hp with hp1 | hp2
    · rw [hp1]
      exact h1
    · exact ih (by rfl) (by simp) p hp2
  | case3 c rest cur h ih =>
    intro h1 h2 p hp
    rw [spAux, if_neg h] at hp
    refine ih ?_ ?_ p hp
    · rw [List.reverse_cons]
      apply noDD_append_one _ _ h1
      intro hlast
      rw [List.getLast?_reverse] at hlast
      have := h2 hlast
      intro hc
      exact this (by simp [hc])
    · intro hc hr
      simp only [List.head?_cons, Option.some.injEq] at hc
      exact h ⟨hc, hr⟩

/-- A string free of double newlines is returned as a single part: the
separator pattern of `re.split(r'\n\n+', text)` never fires inside it. -/
theorem spAux_noDD_single : ∀ (rem cur : Str), noDD rem →
    spAux rem cur = [cur.reverse ++ rem] := by
  intro rem cur
  induction rem, cur using spAux.induct with
  | case1 cur =>
    intro _
    simp [spAux]
  | case2 c rest cur h ih =>
    intro hnd
    exfalso
    rcases h with ⟨hc, hr⟩
    cases rest with
    | nil => simp at hr
    | cons r r2 =>
      simp only [List.head?_cons, Option.some.injEq] at hr
      unfold noDD at hnd
      rw [hc, hr] at hnd
      simp at hnd
  | case3 c rest cur h ih =>
    intro hnd
    rw [spAux, if_neg h, ih (noDD_tail c rest hnd)]
    simp

/-- Every part returned by `splitParagraphs` is free of double newlines. -/
theorem splitParagraphs_parts_noDD (s p : Str) (hp : p ∈ splitParagraphs s) :
    noDD p := by
  refine spAux_noDD s [] (by rfl) ?_ p hp
  intro hc
  simp at hc

/-- Splitting a single double-newline-free part returns it alone. -/
theorem splitParagraphs_noDD_single (p : Str) (h : noDD p) :
    splitParagraphs p = [p] := by
  unfold splitParagraphs
  rw [spAux_noDD_single p [] h]
  rfl

/-!
Claim C10.
-/

/-- C10: for every input text, `TranslatorAgent._split_into_chunks`
conserves content — joining the returned chunks with a blank line yields
the input text with its paragraph separators normalized to a single blank
line (the `'\n\n'`-join of `re.split(r'\n\n+', text)`), so no paragraph is
lost, duplicated or reordered — and every chunk that contains more than
one paragraph has at most `max_chunk_size` words. -/
theorem c10_chunk_splitter_conserves (maxSize : Nat) (text : Str) :
    joinNN (splitIntoChunks maxSize text) = joinNN (splitParagraphs text) ∧
    ∀ c ∈ splitIntoChunks maxSize text,
      1 < (splitParagraphs c).length → wordCount c ≤ maxSize := by
  have h0 : (0 : Nat) = sumWC ([] : List Str) := rfl
  have hne : ∀ g ∈ chunksAux (splitParagraphs text) [] [] 0 maxSize, g ≠ [] :=
    chunksAux_ne_nil maxSize (splitParagraphs text) [] [] 0 (by simp)
  have hfl : (chunksAux (splitParagraphs text) [] [] 0 maxSize).flatten
      = splitParagraphs text := by
    have := chunksAux_flatten maxSize (splitParagraphs text) [] [] 0
    simpa using this
  constructor
  · show joinNN ((chunksAux (splitParagraphs text) [] [] 0 maxSize).map
        (fun g => joinNN g)) = joinNN (splitParagraphs text)
    rw [joinNN_map_flatten _ hne, hfl]
  · intro c hc hlen
    rcases List.mem_map.mp hc with ⟨g, hg, hgc⟩
    subst hgc
    have hglen : 1 < g.length := by
      by_contra hle
      push_neg at hle
      cases g with
      | nil => exact hne [] hg rfl
      | cons p g' =>
        cases g' with
        | nil =>
          have hpmem : p ∈ splitParagraphs text := by
            rw [← hfl]
            exact List.mem_flatten.mpr ⟨[p], hg, by simp⟩
          have hnd := splitParagraphs_parts_noDD text p hpmem
          have : joinNN [p] = p := rfl
          rw [this, splitParagraphs_noDD_single p hnd] at hlen
          simp at hlen
        | cons q g'' => simp at hle
    rw [wordCount_joinNN]
    have hb := chunksAux_bound maxSize (splitParagraphs text) [] []
      (by intro g2 hg2; simp at hg2) (by intro h; simp at h) g
    rw [← h0] at hb
    exact hb hg hglen

/-- Witness for C10 at a concrete input: the two-paragraph text
`"a b\n\nc d"` with a limit of 10 words comes back as one chunk equal to
the text itself, which holds 4 words. -/
theorem c10_witness :
    joinNN (splitIntoChunks 10 (("a b\n\nc d").toList))
        = joinNN (splitParagraphs (("a b\n\nc d").toList)) ∧
    wordCount (("a b\n\nc d").toList) ≤ 10 :=
  ⟨(c10_chunk_splitter_conserves 10 (("a b\n\nc d").toList)).1,
   (c10_chunk_splitter_conserves 10 (("a b\n\nc d").toList)).2
     (("a b\n\nc d").toList)
     (by simp +decide [splitIntoChunks, splitParagraphs, spAux, chunksAux,
       wordCount, pyWords, pyWordsAux, pySpace, sumWC, joinNN, nn])
     (by simp +decide [splitParagraphs, spAux])⟩
